import Mathlib

/-!
# TngPlaneManager: Z-order validation and plane assignment

A shallow embedding of `ips/tangier/TngPlaneManager.cpp`.

* C++ `int` values are `Int`; a `DisplayPlane*` is an `Option DisplayPlane`
  (`none` is the null pointer).
* Calling a member function through a null `DisplayPlane*` is modelled as the
  outcome `Outcome.nullDeref`: the function does not return.
* The enumerators `DisplayPlane::PLANE_*` and `IDisplayDevice::DEVICE_*` come from
  headers outside this file and are parameters (`Enums`).
* The base class `DisplayPlaneManager` (`getFreePlanes`, `getPlane`, `getAnyPlane`)
  and the plane objects (`enable`, `setZOrderConfig`) are outside this file; each of
  their models says so in its doc comment.
* `config.size()` is converted to `int`; sizes are far below `2^31`, so positions are
  unbounded integers here.
-/

namespace TngPlaneManager

/-! ## Data model -/

/-- Enumerators used by `TngPlaneManager.cpp` and declared in `DisplayPlane.h` and
`IDisplayDevice.h`. Their numeric values are parameters. The three plane tags are
pairwise different: they are the case labels of one `switch` in `allocPlane`. -/
structure Enums where
  PLANE_PRIMARY : Int
  PLANE_SPRITE : Int
  PLANE_OVERLAY : Int
  DEVICE_PRIMARY : Int
  DEVICE_EXTERNAL : Int
  primary_ne_sprite : PLANE_PRIMARY ≠ PLANE_SPRITE
  primary_ne_overlay : PLANE_PRIMARY ≠ PLANE_OVERLAY
  sprite_ne_overlay : PLANE_SPRITE ≠ PLANE_OVERLAY

/-- A sample valuation of the enumerators, used to evaluate the model on concrete
inputs. -/
def sampleEnums : Enums where
  PLANE_PRIMARY := 2
  PLANE_SPRITE := 0
  PLANE_OVERLAY := 1
  DEVICE_PRIMARY := 0
  DEVICE_EXTERNAL := 1
  primary_ne_sprite := by decide
  primary_ne_overlay := by decide
  sprite_ne_overlay := by decide

/-- A plane of the pool, identified by its type tag and its type-local index
(`mPlanes[type][index]`). -/
structure DisplayPlane where
  type : Int
  index : Nat
deriving DecidableEq, Repr

/-- One entry of a requested stacking order: the requested plane type and the plane
pointer (`none` while unset or null). -/
structure ZOrderLayer where
  planeType : Int
  plane : Option DisplayPlane
deriving DecidableEq, Repr

/-- The ordered sequence of layers; the position of a layer is its index. -/
abbrev ZOrderConfig := List ZOrderLayer

/-! ## isValidZOrder (lines 87-125) -/

/-- The four locals of `isValidZOrder`. -/
structure Spans where
  firstRGB : Int
  lastRGB : Int
  firstOverlay : Int
  lastOverlay : Int
deriving DecidableEq, Repr

/-- The body of the `for` loop of `isValidZOrder` at position `i` (lines 96-115):
the `switch` on `layer->planeType`, with no `default` case. -/
def scanStep (c : Enums) (sp : Spans) (i : Int) (layer : ZOrderLayer) : Spans :=
  if layer.planeType = c.PLANE_PRIMARY ∨ layer.planeType = c.PLANE_SPRITE then
    if sp.firstRGB = -1 then { sp with firstRGB := i, lastRGB := i }
    else { sp with lastRGB := i }
  else if layer.planeType = c.PLANE_OVERLAY then
    if sp.firstOverlay = -1 then { sp with firstOverlay := i, lastOverlay := i }
    else { sp with lastOverlay := i }
  else sp

/-- The `for` loop of `isValidZOrder` (line 95), from position `i` over the layers
that remain. -/
def scan (c : Enums) : Spans → Int → ZOrderConfig → Spans
  | sp, _, [] => sp
  | sp, i, layer :: rest => scan c (scanStep c sp i layer) (i + 1) rest

/-- `TngPlaneManager::isValidZOrder(int dsp, ZOrderConfig& config)`. -/
def isValidZOrder (c : Enums) (_dsp : Int) (config : ZOrderConfig) : Bool :=
  let sp := scan c ⟨-1, -1, -1, -1⟩ 0 config
  if sp.lastRGB < sp.firstOverlay ∨ sp.firstRGB > sp.lastOverlay then true else false

/-- A layer whose type is Primary or Sprite. -/
def isRGB (c : Enums) (layer : ZOrderLayer) : Prop :=
  layer.planeType = c.PLANE_PRIMARY ∨ layer.planeType = c.PLANE_SPRITE

/-- A layer whose type is Overlay. -/
def isOverlay (c : Enums) (layer : ZOrderLayer) : Prop :=
  layer.planeType = c.PLANE_OVERLAY

instance (c : Enums) (layer : ZOrderLayer) : Decidable (isRGB c layer) := by
  unfold isRGB; infer_instance

instance (c : Enums) (layer : ZOrderLayer) : Decidable (isOverlay c layer) := by
  unfold isOverlay; infer_instance

/-- A layer constructor for a fresh request: the type is set, the plane is unset. -/
def mkLayer (t : Int) : ZOrderLayer := ⟨t, none⟩

/-! ## Manager state -/

/-- What the manager does to layers and planes, in program order: the write of
`layer->plane` at a position, `plane->enable()`, and
`plane->setZOrderConfig(config, &mZorder)` (the second argument is always the
address of the manager's only Z-order state, `mZorder`). -/
inductive Event where
  | bind (position : Nat) (plane : Option DisplayPlane)
  | enable (plane : DisplayPlane)
  | setZOrderConfig (plane : DisplayPlane) (config : ZOrderConfig)
deriving DecidableEq, Repr

/-- The state of a `TngPlaneManager` and of the planes it owns. `planeCount` holds the
per-type capacities (`mSpritePlaneCount`, `mOverlayPlaneCount`, `mPrimaryPlaneCount`),
`free` and `enabled` the two flags of every plane, `mZorder` the committed Z-order
state (empty after the constructor's `memset`), `trace` the events so far. -/
structure Manager where
  mInitialized : Bool
  planeCount : Int → Nat
  free : DisplayPlane → Bool
  enabled : DisplayPlane → Bool
  mZorder : List (Option DisplayPlane)
  trace : List Event

/-- The state that `TngPlaneManager` `initialize()` establishes (lines 47-54): one
sprite, two overlay and three primary planes, and the base class marked initialised.
Which planes are free is left open. -/
def Initialized (c : Enums) (s : Manager) : Prop :=
  s.mInitialized = true ∧ s.planeCount c.PLANE_SPRITE = 1 ∧
    s.planeCount c.PLANE_OVERLAY = 2 ∧ s.planeCount c.PLANE_PRIMARY = 3

/-- A plane object as `allocPlane` builds it: the plane type of its class
(`TngPrimaryPlane`, `TngSpritePlane`, `TngOverlayPlane`) and the two arguments of its
constructor. -/
structure PlaneObject where
  type : Int
  index : Int
  disp : Int
deriving DecidableEq, Repr

/-- `TngPlaneManager::allocPlane(int index, int type)` (lines 61-85). The plane classes
and `DisplayPlane::initialize` are outside this file: `hwInit plane` is the result of
`plane->initialize(DisplayPlane::MIN_DATA_BUFFER_COUNT)`. `DEINIT_AND_DELETE_OBJ`
deinitialises and deletes the object and clears the pointer, so the null pointer is
returned when initialisation fails. -/
def allocPlane (c : Enums) (hwInit : PlaneObject → Bool) (index : Int) (type : Int) :
    Option PlaneObject :=
  let plane : Option PlaneObject :=
    if type = c.PLANE_PRIMARY then some ⟨c.PLANE_PRIMARY, index, index⟩
    else if type = c.PLANE_SPRITE then some ⟨c.PLANE_SPRITE, index, 0⟩
    else if type = c.PLANE_OVERLAY then some ⟨c.PLANE_OVERLAY, index, 0⟩
    else none
  match plane with
  | some p => if hwInit p = false then none else some p
  | none => none

/-- Line 179: `int index = dsp == IDisplayDevice::DEVICE_PRIMARY ? 0 : 1;`. -/
def preferenceIndex (c : Enums) (dsp : Int) : Nat :=
  if dsp = c.DEVICE_PRIMARY then 0 else 1

/-- Clears the free flag of one plane: the plane is handed out. -/
def takePlane (s : Manager) (p : DisplayPlane) : Manager :=
  { s with free := fun q => if q = p then false else s.free q }

/-- Modelled from the spec: `DisplayPlaneManager::getPlane(type, index)` belongs to the
base class, which is not in this file. Spec 4.4: "return the plane at the preference
index if free"; spec 3: a plane is free if it is not bound. The plane `(type, index)`
is returned when it exists and is free, and is then no longer free; otherwise the null
pointer is returned and nothing changes. -/
def getPlane (s : Manager) (type : Int) (index : Nat) : Option DisplayPlane × Manager :=
  if index < s.planeCount type ∧ s.free ⟨type, index⟩ = true then
    (some ⟨type, index⟩, takePlane s ⟨type, index⟩)
  else (none, s)

/-- Modelled from the spec: `DisplayPlaneManager::getAnyPlane(type)` belongs to the
base class, which is not in this file. Spec 4.4: "return any free sprite plane
regardless of pipeline". The free plane of the type with the lowest index is
returned and is then no longer free; with no free plane the null pointer is
returned and nothing changes. -/
def getAnyPlane (s : Manager) (type : Int) : Option DisplayPlane × Manager :=
  match (List.range (s.planeCount type)).find? (fun i => s.free ⟨type, i⟩) with
  | some i => (some ⟨type, i⟩, takePlane s ⟨type, i⟩)
  | none => (none, s)

/-- Modelled from the spec: `DisplayPlaneManager::getFreePlanes(dsp, type)` belongs to
the base class, which is not in this file. Spec 4.3: "check a free plane of the
requested type exists for this pipeline". The result is the number of free planes of
the type for the pipeline: none for a manager that is not initialised or a pipeline
outside the supported range; for Primary (bound to its pipeline, spec 4.4) the plane at
the preference index alone; for every other type all free planes of the type. It
reads the state and changes nothing. -/
def getFreePlanes (c : Enums) (s : Manager) (dsp type : Int) : Int :=
  if s.mInitialized = false then 0
  else if dsp < 0 ∨ dsp > c.DEVICE_EXTERNAL then 0
  else if type = c.PLANE_PRIMARY then
    if preferenceIndex c dsp < s.planeCount type ∧
        s.free ⟨type, preferenceIndex c dsp⟩ = true then 1 else 0
  else (((List.range (s.planeCount type)).filter (fun i => s.free ⟨type, i⟩)).length : Int)

/-- Modelled from the spec: `DisplayPlane::enable()` belongs to the plane classes, which
are not in this file. Spec 8: the plane is "marked enabled". The call is recorded in
the trace. -/
def enable (s : Manager) (p : DisplayPlane) : Manager :=
  { s with enabled := fun q => if q = p then true else s.enabled q,
           trace := s.trace ++ [Event.enable p] }

/-- Modelled from the spec: `DisplayPlane::setZOrderConfig(config, &mZorder)` belongs to
the plane classes, which are not in this file. Spec 3 and 4.3: the plane writes the full
configuration and the Z-order state becomes the record of the plane bound at each
position, overwritten on each commit. The call is recorded in the trace. -/
def setZOrderConfig (s : Manager) (p : DisplayPlane) (config : ZOrderConfig) : Manager :=
  { s with mZorder := config.map (fun layer => layer.plane),
           trace := s.trace ++ [Event.setZOrderConfig p config] }

/-! ## getPlaneHelper (lines 170-196) -/

/-- `TngPlaneManager::getPlaneHelper(int dsp, int type)`. `RETURN_NULL_IF_NOT_INIT`
returns the null pointer when the manager is not initialised; `!index` is 1 for index
0 and 0 for index 1. -/
def getPlaneHelper (c : Enums) (s : Manager) (dsp type : Int) :
    Option DisplayPlane × Manager :=
  if s.mInitialized = false then (none, s)
  else if dsp < 0 ∨ dsp > c.DEVICE_EXTERNAL then (none, s)
  else
    let index := preferenceIndex c dsp
    if type = c.PLANE_PRIMARY then getPlane s type index
    else if type = c.PLANE_SPRITE then getAnyPlane s type
    else if type = c.PLANE_OVERLAY then
      match getPlane s type index with
      | (some plane, s1) => (some plane, s1)
      | (none, s1) => getPlane s1 type (if index = 0 then 1 else 0)
    else (none, s)

/-! ## assignPlanes (lines 127-163) -/

/-- How a call of `assignPlanes` ends: it returns a value, or it calls a member
function through a null plane pointer (`layer->plane->enable()` at line 153,
`layer->plane->setZOrderConfig` at line 159) and does not return. Both carry the
manager state and the caller's configuration at that moment. -/
inductive Outcome where
  | returned (value : Bool) (s : Manager) (config : ZOrderConfig)
  | nullDeref (s : Manager) (config : ZOrderConfig)

/-- The probe loop (lines 131-137): `true` when it runs to its end, `false` when it
reaches `return false`. -/
def probe (c : Enums) (s : Manager) (dsp : Int) : ZOrderConfig → Bool
  | [] => true
  | layer :: rest =>
    if getFreePlanes c s dsp layer.planeType = 0 then false else probe c s dsp rest

/-- Lines 139-141. The statement in the body is the comparison
`config[0]->planeType == DisplayPlane::PLANE_PRIMARY;`: its value is computed and
discarded, and nothing is written. -/
def singleSpriteRewrite (c : Enums) (config : ZOrderConfig) : ZOrderConfig :=
  match config with
  | [layer] =>
    if layer.planeType = c.PLANE_SPRITE then
      let _discarded : Bool := decide (layer.planeType = c.PLANE_PRIMARY)
      [layer]
    else [layer]
  | _ => config

/-- The allocation loop (lines 144-154) from position `i` over the layers that remain.
Each layer gets `layer->plane = getPlaneHelper(dsp, layer->planeType)`; a null result is
logged and then `layer->plane->enable()` runs all the same, which for the null pointer
is `Except.error` with the state at that point. The configuration in the result holds
the layers from position `i` on, with the planes written so far. -/
def allocPass (c : Enums) (dsp : Int) :
    Manager → Nat → ZOrderConfig → Except (Manager × ZOrderConfig) (Manager × ZOrderConfig)
  | s, _, [] => Except.ok (s, [])
  | s, i, layer :: rest =>
    let r := getPlaneHelper c s dsp layer.planeType
    let s1 : Manager := { r.2 with trace := r.2.trace ++ [Event.bind i r.1] }
    match r.1 with
    | none => Except.error (s1, { layer with plane := none } :: rest)
    | some p =>
      match allocPass c dsp (enable s1 p) (i + 1) rest with
      | Except.ok (s2, rest1) => Except.ok (s2, { layer with plane := some p } :: rest1)
      | Except.error (s2, rest1) =>
        Except.error (s2, { layer with plane := some p } :: rest1)

/-- The Z-order loop (lines 157-160) over the layers that remain; `config` is the whole
configuration, passed to every plane. A null `layer->plane` is `Except.error`. -/
def commitPass (config : ZOrderConfig) : Manager → ZOrderConfig → Except Manager Manager
  | s, [] => Except.ok s
  | s, layer :: rest =>
    match layer.plane with
    | none => Except.error s
    | some p => commitPass config (setZOrderConfig s p config) rest

/-- `TngPlaneManager::assignPlanes(int dsp, ZOrderConfig& config)`. -/
def assignPlanes (c : Enums) (s : Manager) (dsp : Int) (config : ZOrderConfig) : Outcome :=
  if probe c s dsp config = false then Outcome.returned false s config
  else
    match allocPass c dsp s 0 (singleSpriteRewrite c config) with
    | Except.error (s1, config1) => Outcome.nullDeref s1 config1
    | Except.ok (s1, config1) =>
      match commitPass config1 s1 config1 with
      | Except.error s2 => Outcome.nullDeref s2 config1
      | Except.ok s2 => Outcome.returned true s2 config1

/-- `TngPlaneManager::getZOrderConfig()` (lines 165-168): the committed Z-order state. -/
def getZOrderConfig (s : Manager) : List (Option DisplayPlane) := s.mZorder

/-! ## Observations on outcomes and sample states -/

/-- The value returned, if the call returned. -/
def Outcome.value : Outcome → Option Bool
  | Outcome.returned v _ _ => some v
  | Outcome.nullDeref _ _ => none

/-- The manager state at the end of the call. -/
def Outcome.manager : Outcome → Manager
  | Outcome.returned _ s _ => s
  | Outcome.nullDeref s _ => s

/-- The caller's configuration at the end of the call. -/
def Outcome.config : Outcome → ZOrderConfig
  | Outcome.returned _ _ config => config
  | Outcome.nullDeref _ config => config

/-- The Tangier pool right after initialisation, for the sample enumerators: one
sprite, two overlay, three primary planes, all free, none enabled. -/
def freshManager : Manager where
  mInitialized := true
  planeCount := fun t => if t = 0 then 1 else if t = 1 then 2 else if t = 2 then 3 else 0
  free := fun _ => true
  enabled := fun _ => false
  mZorder := []
  trace := []

/-- The fresh pool with some planes already handed out. -/
def busyManager (busy : List DisplayPlane) : Manager :=
  { freshManager with free := fun p => !(busy.contains p) }

/-- The pair `(f, t)` holds the first and the last position of a layer of `l` with
property `p`, or `-1` twice when `l` has no such layer. -/
def SpanOf (p : ZOrderLayer → Prop) (l : ZOrderConfig) (f t : Int) : Prop :=
  (f = -1 ∧ t = -1 ∧ ∀ (j : Nat) (a : ZOrderLayer), l[j]? = some a → ¬ p a) ∨
  (∃ jf jt : Nat, f = jf ∧ t = jt ∧ (∃ a, l[jf]? = some a ∧ p a) ∧
    (∃ b, l[jt]? = some b ∧ p b) ∧
    ∀ (j : Nat) (a : ZOrderLayer), l[j]? = some a → p a → jf ≤ j ∧ j ≤ jt)

/-! ## isValidZOrder on the memory it can reach -/

/-- The memory `isValidZOrder` can reach: the manager (`this`), the configuration behind
the reference `config`, and the four locals. -/
structure ValidatorState where
  mgr : Manager
  config : ZOrderConfig
  spans : Spans

/-- One iteration of the loop of `isValidZOrder` (lines 96-115) on that memory:
`config[i]` is read through a pointer to const and only locals are assigned. -/
def isValidZOrderBody (c : Enums) (st : ValidatorState) (i : Nat) : ValidatorState :=
  match st.config[i]? with
  | some layer => { st with spans := scanStep c st.spans i layer }
  | none => st

/-- The loop of `isValidZOrder` (line 95) on that memory, from position `i`: the test
`i < (int)config.size()` is made before every iteration, `fuel` bounds their number. -/
def isValidZOrderLoop (c : Enums) : ValidatorState → Nat → Nat → ValidatorState
  | st, _, 0 => st
  | st, i, fuel + 1 =>
    if i < st.config.length then isValidZOrderLoop c (isValidZOrderBody c st i) (i + 1) fuel
    else st

/-- `TngPlaneManager::isValidZOrder` as a transformer of the memory it can reach: the
value returned, and the manager and the configuration after the call. -/
def isValidZOrderRun (c : Enums) (fuel : Nat) (s : Manager) (_dsp : Int)
    (config : ZOrderConfig) : Bool × Manager × ZOrderConfig :=
  let st := isValidZOrderLoop c ⟨s, config, ⟨-1, -1, -1, -1⟩⟩ 0 fuel
  (if st.spans.lastRGB < st.spans.firstOverlay ∨ st.spans.firstRGB > st.spans.lastOverlay
    then true else false, st.mgr, st.config)

/-! ## The order of operations of assignPlanes -/

/-- The events of the allocation loop when the layers from position `i` on are bound
to `planes`, in order: for each layer the write of its plane pointer, then `enable()`
on that plane. -/
def allocEvents : Nat → List DisplayPlane → List Event
  | _, [] => []
  | i, p :: ps => Event.bind i (some p) :: Event.enable p :: allocEvents (i + 1) ps

/-- The events of the Z-order loop when the layers are bound to `planes`, in order:
`setZOrderConfig` on each layer's plane with the whole configuration. -/
def commitEvents (config : ZOrderConfig) (planes : List DisplayPlane) : List Event :=
  planes.map (fun p => Event.setZOrderConfig p config)

/-! ## Theorems: isValidZOrder -/

theorem isRGB_not_isOverlay (c : Enums) (a : ZOrderLayer) (h : isRGB c a) :
    ¬ isOverlay c a := by
  intro ho
  unfold isRGB at h
  unfold isOverlay at ho
  rcases h with h | h
  · exact c.primary_ne_overlay (h ▸ ho)
  · exact c.sprite_ne_overlay (h ▸ ho)

theorem scan_snoc (c : Enums) (l : ZOrderConfig) (x : ZOrderLayer) :
    ∀ (sp : Spans) (i : Int),
      scan c sp i (l ++ [x]) = scanStep c (scan c sp i l) (i + l.length) x := by
  induction l with
  | nil => intro sp i; simp [scan]
  | cons y ys ih =>
    intro sp i
    show scan c (scanStep c sp i y) (i + 1) (ys ++ [x]) = _
    rw [ih]
    simp only [scan, List.length_cons]
    congr 1
    push_cast
    ring

theorem scanStep_rgb (c : Enums) (sp : Spans) (i : Int) (x : ZOrderLayer) (h : isRGB c x) :
    scanStep c sp i x =
      ⟨if sp.firstRGB = -1 then i else sp.firstRGB, i, sp.firstOverlay, sp.lastOverlay⟩ := by
  have h2 : x.planeType = c.PLANE_PRIMARY ∨ x.planeType = c.PLANE_SPRITE := h
  unfold scanStep
  rw [if_pos h2]
  split <;> rfl

theorem scanStep_overlay (c : Enums) (sp : Spans) (i : Int) (x : ZOrderLayer)
    (h : isOverlay c x) :
    scanStep c sp i x =
      ⟨sp.firstRGB, sp.lastRGB, if sp.firstOverlay = -1 then i else sp.firstOverlay, i⟩ := by
  have h1 : ¬ (x.planeType = c.PLANE_PRIMARY ∨ x.planeType = c.PLANE_SPRITE) :=
    fun hr => isRGB_not_isOverlay c x hr h
  have h2 : x.planeType = c.PLANE_OVERLAY := h
  unfold scanStep
  rw [if_neg h1, if_pos h2]
  split <;> rfl

theorem scanStep_other (c : Enums) (sp : Spans) (i : Int) (x : ZOrderLayer)
    (hr : ¬ isRGB c x) (ho : ¬ isOverlay c x) : scanStep c sp i x = sp := by
  have h1 : ¬ (x.planeType = c.PLANE_PRIMARY ∨ x.planeType = c.PLANE_SPRITE) := hr
  have h2 : ¬ x.planeType = c.PLANE_OVERLAY := ho
  unfold scanStep
  rw [if_neg h1, if_neg h2]

theorem getElem?_snoc_cases {α : Type} (l : List α) (x : α) (j : Nat) (a : α)
    (h : (l ++ [x])[j]? = some a) : l[j]? = some a ∨ (j = l.length ∧ a = x) := by
  by_cases hj : j < l.length
  · left
    rw [List.getElem?_append_left hj] at h
    exact h
  · right
    have hj2 : l.length ≤ j := Nat.le_of_not_lt hj
    rw [List.getElem?_append_right hj2] at h
    by_cases h0 : j - l.length = 0
    · rw [h0] at h
      simp at h
      exact ⟨by omega, h.symm⟩
    · obtain ⟨k, hk⟩ := Nat.exists_eq_succ_of_ne_zero h0
      rw [hk] at h
      simp at h

theorem getElem?_snoc_left {α : Type} (l : List α) (x : α) (j : Nat) (a : α)
    (h : l[j]? = some a) : (l ++ [x])[j]? = some a := by
  have hj : j < l.length := by
    by_contra hn
    have : l[j]? = none := List.getElem?_eq_none (Nat.le_of_not_lt hn)
    rw [this] at h
    cases h
  rw [List.getElem?_append_left hj]
  exact h

theorem getElem?_lt_length {α : Type} (l : List α) (j : Nat) (a : α)
    (h : l[j]? = some a) : j < l.length := by
  by_contra hn
  have : l[j]? = none := List.getElem?_eq_none (Nat.le_of_not_lt hn)
  rw [this] at h
  cases h

theorem spanOf_snoc_miss (p : ZOrderLayer → Prop) (l : ZOrderConfig) (x : ZOrderLayer)
    (f t : Int) (h : SpanOf p l f t) (hx : ¬ p x) : SpanOf p (l ++ [x]) f t := by
  rcases h with ⟨hf, ht, hno⟩ | ⟨jf, jt, hf, ht, ⟨a, ha, hpa⟩, ⟨b, hb, hpb⟩, hall⟩
  · left
    refine ⟨hf, ht, ?_⟩
    intro j a ha
    rcases getElem?_snoc_cases l x j a ha with h1 | ⟨_, h2⟩
    · exact hno j a h1
    · rw [h2]; exact hx
  · right
    refine ⟨jf, jt, hf, ht, ⟨a, getElem?_snoc_left l x jf a ha, hpa⟩,
      ⟨b, getElem?_snoc_left l x jt b hb, hpb⟩, ?_⟩
    intro j a2 ha2 hp2
    rcases getElem?_snoc_cases l x j a2 ha2 with h1 | ⟨_, h2⟩
    · exact hall j a2 h1 hp2
    · rw [h2] at hp2; exact absurd hp2 hx

theorem spanOf_snoc_hit (p : ZOrderLayer → Prop) (l : ZOrderConfig) (x : ZOrderLayer)
    (f t : Int) (h : SpanOf p l f t) (hx : p x) :
    SpanOf p (l ++ [x]) (if f = -1 then (l.length : Int) else f) (l.length : Int) := by
  have hlast : (l ++ [x])[l.length]? = some x := by simp
  rcases h with ⟨hf, _, hno⟩ | ⟨jf, jt, hf, _, ⟨a, ha, hpa⟩, ⟨b, hb, _⟩, hall⟩
  · right
    refine ⟨l.length, l.length, by simp [hf], rfl, ⟨x, hlast, hx⟩, ⟨x, hlast, hx⟩, ?_⟩
    intro j a2 ha2 hp2
    rcases getElem?_snoc_cases l x j a2 ha2 with h1 | ⟨h2, _⟩
    · exact absurd hp2 (hno j a2 h1)
    · omega
  · right
    have hne : f ≠ -1 := by omega
    have hjf : jf < l.length := getElem?_lt_length l jf a ha
    refine ⟨jf, l.length, by simp [hne, hf], rfl, ⟨a, getElem?_snoc_left l x jf a ha, hpa⟩,
      ⟨x, hlast, hx⟩, ?_⟩
    intro j a2 ha2 hp2
    rcases getElem?_snoc_cases l x j a2 ha2 with h1 | ⟨h2, _⟩
    · have := hall j a2 h1 hp2
      have := getElem?_lt_length l j a2 h1
      omega
    · omega

/-- The loop of `isValidZOrder` computes the first and last position of the
RGB-capable layers and of the Overlay layers, `-1` standing for "none". -/
theorem scan_spec (c : Enums) (config : ZOrderConfig) :
    SpanOf (isRGB c) config (scan c ⟨-1, -1, -1, -1⟩ 0 config).firstRGB
        (scan c ⟨-1, -1, -1, -1⟩ 0 config).lastRGB ∧
      SpanOf (isOverlay c) config (scan c ⟨-1, -1, -1, -1⟩ 0 config).firstOverlay
        (scan c ⟨-1, -1, -1, -1⟩ 0 config).lastOverlay := by
  induction config using List.reverseRecOn with
  | nil =>
    constructor <;> exact Or.inl ⟨rfl, rfl, by simp⟩
  | append_singleton l x ih =>
    obtain ⟨ihr, iho⟩ := ih
    rw [scan_snoc]
    simp only [zero_add]
    by_cases hr : isRGB c x
    · rw [scanStep_rgb c _ _ x hr]
      exact ⟨spanOf_snoc_hit (isRGB c) l x _ _ ihr hr,
        spanOf_snoc_miss (isOverlay c) l x _ _ iho (isRGB_not_isOverlay c x hr)⟩
    · by_cases ho : isOverlay c x
      · rw [scanStep_overlay c _ _ x ho]
        exact ⟨spanOf_snoc_miss (isRGB c) l x _ _ ihr hr,
          spanOf_snoc_hit (isOverlay c) l x _ _ iho ho⟩
      · rw [scanStep_other c _ _ x hr ho]
        exact ⟨spanOf_snoc_miss (isRGB c) l x _ _ ihr hr,
          spanOf_snoc_miss (isOverlay c) l x _ _ iho ho⟩

theorem isValidZOrder_eq_true_iff (c : Enums) (dsp : Int) (config : ZOrderConfig) :
    isValidZOrder c dsp config = true ↔
      (scan c ⟨-1, -1, -1, -1⟩ 0 config).lastRGB <
          (scan c ⟨-1, -1, -1, -1⟩ 0 config).firstOverlay ∨
        (scan c ⟨-1, -1, -1, -1⟩ 0 config).firstRGB >
          (scan c ⟨-1, -1, -1, -1⟩ 0 config).lastOverlay := by
  unfold isValidZOrder
  simp only []
  split <;> simp_all

/-- C1: for a non-empty configuration whose layers are all Primary, Sprite or Overlay,
`isValidZOrder` returns true exactly when every RGB-capable layer sits at a strictly
smaller position than every Overlay layer, or every RGB-capable layer sits at a
strictly larger position than every Overlay layer. -/
theorem isValidZOrder_iff_two_bands (c : Enums) (dsp : Int) (config : ZOrderConfig)
    (hne : config ≠ [])
    (htypes : ∀ layer ∈ config, layer.planeType = c.PLANE_PRIMARY ∨
      layer.planeType = c.PLANE_SPRITE ∨ layer.planeType = c.PLANE_OVERLAY) :
    isValidZOrder c dsp config = true ↔
      ((∀ (i j : Nat) (a b : ZOrderLayer), config[i]? = some a → config[j]? = some b →
          isRGB c a → isOverlay c b → i < j) ∨
        (∀ (i j : Nat) (a b : ZOrderLayer), config[i]? = some a → config[j]? = some b →
          isRGB c a → isOverlay c b → j < i)) := by
  rw [isValidZOrder_eq_true_iff]
  obtain ⟨hr, ho⟩ := scan_spec c config
  generalize scan c ⟨-1, -1, -1, -1⟩ 0 config = sp at hr ho ⊢
  rcases hr with ⟨hrf, hrt, hrno⟩ | ⟨rf, rt, hrf, hrt, ⟨a, ha, hpa⟩, ⟨b, hb, hpb⟩, hrall⟩ <;>
  rcases ho with ⟨hof, hot, hono⟩ | ⟨ovf, ovt, hof, hot, ⟨a2, ha2, hpa2⟩, ⟨b2, hb2, hpb2⟩, hoall⟩
  · exfalso
    obtain ⟨x, xs, rfl⟩ := List.exists_cons_of_ne_nil hne
    have h0 : (x :: xs)[0]? = some x := by simp
    rcases htypes x (by simp) with h | h | h
    · exact hrno 0 x h0 (Or.inl h)
    · exact hrno 0 x h0 (Or.inr h)
    · exact hono 0 x h0 h
  · constructor
    · intro _
      left
      intro i j x y hi _ hx _
      exact absurd hx (hrno i x hi)
    · intro _
      left
      omega
  · constructor
    · intro _
      left
      intro i j x y _ hj _ hy
      exact absurd hy (hono j y hj)
    · intro _
      right
      omega
  · constructor
    · rintro (h | h)
      · left
        intro i j x y hi hj hx hy
        have h1 := hrall i x hi hx
        have h2 := hoall j y hj hy
        omega
      · right
        intro i j x y hi hj hx hy
        have h1 := hrall i x hi hx
        have h2 := hoall j y hj hy
        omega
    · rintro (h | h)
      · left
        have := h rt ovf b a2 hb ha2 hpb hpa2
        omega
      · right
        have := h rf ovt a b2 ha hb2 hpa hpb2
        omega

/-- C1 at the configuration [Overlay, Primary] (Scenario A). -/
theorem isValidZOrder_iff_two_bands_witness :
    ([mkLayer 1, mkLayer 2] : ZOrderConfig) ≠ [] ∧
      (isValidZOrder sampleEnums 0 [mkLayer 1, mkLayer 2] = true ↔
        ((∀ (i j : Nat) (a b : ZOrderLayer),
            ([mkLayer 1, mkLayer 2] : ZOrderConfig)[i]? = some a →
            ([mkLayer 1, mkLayer 2] : ZOrderConfig)[j]? = some b →
            isRGB sampleEnums a → isOverlay sampleEnums b → i < j) ∨
          (∀ (i j : Nat) (a b : ZOrderLayer),
            ([mkLayer 1, mkLayer 2] : ZOrderConfig)[i]? = some a →
            ([mkLayer 1, mkLayer 2] : ZOrderConfig)[j]? = some b →
            isRGB sampleEnums a → isOverlay sampleEnums b → j < i))) :=
  ⟨by decide,
    isValidZOrder_iff_two_bands sampleEnums 0 [mkLayer 1, mkLayer 2] (by decide) (by decide)⟩

/-- C6 fails as stated: the empty configuration has no Overlay layer and no RGB-capable
layer, and `isValidZOrder` returns false on it. -/
theorem isValidZOrder_empty_config_false :
    ((∀ a ∈ ([] : ZOrderConfig), ¬ isOverlay sampleEnums a) ∨
        (∀ a ∈ ([] : ZOrderConfig), ¬ isRGB sampleEnums a)) ∧
      isValidZOrder sampleEnums 0 [] = false := by
  decide

/-- C6, amended: for a configuration that contains no Overlay layer, or no RGB-capable
layer, `isValidZOrder` returns true exactly when the configuration contains at least one
Primary, Sprite or Overlay layer. -/
theorem isValidZOrder_single_band (c : Enums) (dsp : Int) (config : ZOrderConfig)
    (h : (∀ a ∈ config, ¬ isOverlay c a) ∨ (∀ a ∈ config, ¬ isRGB c a)) :
    isValidZOrder c dsp config = true ↔ ∃ a ∈ config, isRGB c a ∨ isOverlay c a := by
  rw [isValidZOrder_eq_true_iff]
  obtain ⟨hr, ho⟩ := scan_spec c config
  generalize scan c ⟨-1, -1, -1, -1⟩ 0 config = sp at hr ho ⊢
  rcases hr with ⟨hrf, hrt, hrno⟩ | ⟨rf, rt, hrf, hrt, ⟨a, ha, hpa⟩, ⟨b, hb, hpb⟩, hrall⟩ <;>
  rcases ho with ⟨hof, hot, hono⟩ | ⟨ovf, ovt, hof, hot, ⟨a2, ha2, hpa2⟩, ⟨b2, hb2, hpb2⟩, hoall⟩
  · constructor
    · intro hv
      omega
    · rintro ⟨x, hx, hp⟩
      obtain ⟨j, hj⟩ := List.getElem?_of_mem hx
      rcases hp with hp | hp
      · exact absurd hp (hrno j x hj)
      · exact absurd hp (hono j x hj)
  · constructor
    · intro _
      exact ⟨a2, List.getElem?_mem ha2, Or.inr hpa2⟩
    · intro _
      left
      omega
  · constructor
    · intro _
      exact ⟨a, List.getElem?_mem ha, Or.inl hpa⟩
    · intro _
      right
      omega
  · exfalso
    rcases h with h | h
    · exact h a2 (List.getElem?_mem ha2) hpa2
    · exact h a (List.getElem?_mem ha) hpa

/-- C6 (amended) at the configuration [Sprite, Primary]. -/
theorem isValidZOrder_single_band_witness :
    ((∀ a ∈ ([mkLayer 0, mkLayer 2] : ZOrderConfig), ¬ isOverlay sampleEnums a) ∨
        (∀ a ∈ ([mkLayer 0, mkLayer 2] : ZOrderConfig), ¬ isRGB sampleEnums a)) ∧
      (isValidZOrder sampleEnums 0 [mkLayer 0, mkLayer 2] = true ↔
        ∃ a ∈ ([mkLayer 0, mkLayer 2] : ZOrderConfig),
          isRGB sampleEnums a ∨ isOverlay sampleEnums a) :=
  ⟨by decide, isValidZOrder_single_band sampleEnums 0 [mkLayer 0, mkLayer 2] (by decide)⟩

/-- C7: when an RGB-capable layer sits strictly between two Overlay layers (so strictly
between the first and the last Overlay position), or an Overlay layer sits strictly
between two RGB-capable layers, `isValidZOrder` returns false. -/
theorem isValidZOrder_interleaved_false (c : Enums) (dsp : Int) (config : ZOrderConfig)
    (h : (∃ (i j k : Nat) (x y z : ZOrderLayer), i < j ∧ j < k ∧ config[i]? = some x ∧
          config[j]? = some y ∧ config[k]? = some z ∧
          isOverlay c x ∧ isRGB c y ∧ isOverlay c z) ∨
        (∃ (i j k : Nat) (x y z : ZOrderLayer), i < j ∧ j < k ∧ config[i]? = some x ∧
          config[j]? = some y ∧ config[k]? = some z ∧
          isRGB c x ∧ isOverlay c y ∧ isRGB c z)) :
    isValidZOrder c dsp config = false := by
  rw [← Bool.not_eq_true, isValidZOrder_eq_true_iff]
  obtain ⟨hr, ho⟩ := scan_spec c config
  generalize scan c ⟨-1, -1, -1, -1⟩ 0 config = sp at hr ho ⊢
  rcases hr with ⟨hrf, hrt, hrno⟩ | ⟨rf, rt, hrf, hrt, ⟨a, ha, hpa⟩, ⟨b, hb, hpb⟩, hrall⟩ <;>
  rcases ho with ⟨hof, hot, hono⟩ | ⟨ovf, ovt, hof, hot, ⟨a2, ha2, hpa2⟩, ⟨b2, hb2, hpb2⟩, hoall⟩ <;>
  rcases h with ⟨i, j, k, x, y, z, hij, hjk, hi, hj, hk, hx, hy, hz⟩ |
    ⟨i, j, k, x, y, z, hij, hjk, hi, hj, hk, hx, hy, hz⟩
  · exact absurd hy (hrno j y hj)
  · exact absurd hy (hono j y hj)
  · exact absurd hy (hrno j y hj)
  · exact absurd hx (hrno i x hi)
  · exact absurd hx (hono i x hi)
  · exact absurd hy (hono j y hj)
  · have h1 := hoall i x hi hx
    have h2 := hrall j y hj hy
    have h3 := hoall k z hk hz
    omega
  · have h1 := hrall i x hi hx
    have h2 := hoall j y hj hy
    have h3 := hrall k z hk hz
    omega

/-- C7 at the configuration [Primary, Overlay, Sprite] (Scenario B). -/
theorem isValidZOrder_interleaved_false_witness :
    isValidZOrder sampleEnums 0 [mkLayer 2, mkLayer 1, mkLayer 0] = false :=
  isValidZOrder_interleaved_false sampleEnums 0 [mkLayer 2, mkLayer 1, mkLayer 0]
    (Or.inr ⟨0, 1, 2, mkLayer 2, mkLayer 1, mkLayer 0, by decide, by decide, rfl, rfl, rfl,
      by decide, by decide, by decide⟩)

/-! ## Theorems: getPlaneHelper -/

theorem getPlane_fst (s : Manager) (type : Int) (index : Nat) :
    (getPlane s type index).1 =
      if index < s.planeCount type ∧ s.free ⟨type, index⟩ = true then some ⟨type, index⟩
      else none := by
  unfold getPlane
  split <;> rfl

theorem getPlane_none_snd (s : Manager) (type : Int) (index : Nat)
    (h : (getPlane s type index).1 = none) : (getPlane s type index).2 = s := by
  unfold getPlane at h ⊢
  split
  · rename_i hc
    rw [if_pos hc] at h
    cases h
  · rfl

theorem getPlaneHelper_overlay (c : Enums) (s : Manager) (dsp : Int)
    (hinit : s.mInitialized = true) (h0 : 0 ≤ dsp) (h1 : dsp ≤ c.DEVICE_EXTERNAL) :
    (getPlaneHelper c s dsp c.PLANE_OVERLAY).1 =
      if preferenceIndex c dsp < s.planeCount c.PLANE_OVERLAY ∧
          s.free ⟨c.PLANE_OVERLAY, preferenceIndex c dsp⟩ = true then
        some ⟨c.PLANE_OVERLAY, preferenceIndex c dsp⟩
      else (getPlane s c.PLANE_OVERLAY (if preferenceIndex c dsp = 0 then 1 else 0)).1 := by
  have hr : ¬ (dsp < 0 ∨ dsp > c.DEVICE_EXTERNAL) := by omega
  have hi : ¬ (s.mInitialized = false) := by simp [hinit]
  have hp : ¬ (c.PLANE_OVERLAY = c.PLANE_PRIMARY) := fun h => c.primary_ne_overlay h.symm
  have hs : ¬ (c.PLANE_OVERLAY = c.PLANE_SPRITE) := fun h => c.sprite_ne_overlay h.symm
  unfold getPlaneHelper
  rw [if_neg hi, if_neg hr]
  simp only [if_neg hp, if_neg hs, if_true]
  by_cases hc : preferenceIndex c dsp < s.planeCount c.PLANE_OVERLAY ∧
      s.free ⟨c.PLANE_OVERLAY, preferenceIndex c dsp⟩ = true
  · rw [if_pos hc]
    simp only [getPlane, if_pos hc]
  · rw [if_neg hc]
    simp only [getPlane, if_neg hc]

/-- C8: in an initialised pool and for a pipeline id in the supported range,
`getPlaneHelper(dsp, Overlay)` returns the overlay plane at the preference index (0 for
the primary pipeline, 1 otherwise) when it is free; when that plane is busy and the
overlay plane at the other index is free it returns the other plane; and it returns
the null pointer exactly when overlay planes 0 and 1 are both busy. -/
theorem getPlaneHelper_overlay_fallback (c : Enums) (s : Manager) (dsp : Int)
    (hinit : Initialized c s) (h0 : 0 ≤ dsp) (h1 : dsp ≤ c.DEVICE_EXTERNAL) :
    (s.free ⟨c.PLANE_OVERLAY, if dsp = c.DEVICE_PRIMARY then 0 else 1⟩ = true →
        (getPlaneHelper c s dsp c.PLANE_OVERLAY).1 =
          some ⟨c.PLANE_OVERLAY, if dsp = c.DEVICE_PRIMARY then 0 else 1⟩) ∧
      (s.free ⟨c.PLANE_OVERLAY, if dsp = c.DEVICE_PRIMARY then 0 else 1⟩ = false →
        s.free ⟨c.PLANE_OVERLAY, if dsp = c.DEVICE_PRIMARY then 1 else 0⟩ = true →
        (getPlaneHelper c s dsp c.PLANE_OVERLAY).1 =
          some ⟨c.PLANE_OVERLAY, if dsp = c.DEVICE_PRIMARY then 1 else 0⟩) ∧
      ((getPlaneHelper c s dsp c.PLANE_OVERLAY).1 = none ↔
        (s.free ⟨c.PLANE_OVERLAY, 0⟩ = false ∧ s.free ⟨c.PLANE_OVERLAY, 1⟩ = false)) := by
  obtain ⟨hi, _, hov, _⟩ := hinit
  rw [getPlaneHelper_overlay c s dsp hi h0 h1, getPlane_fst]
  unfold preferenceIndex
  rw [hov]
  by_cases hd : dsp = c.DEVICE_PRIMARY
  · simp only [if_pos hd, if_true]
    cases hf0 : s.free ⟨c.PLANE_OVERLAY, 0⟩ <;> cases hf1 : s.free ⟨c.PLANE_OVERLAY, 1⟩ <;>
      simp [hf0, hf1]
  · simp only [if_neg hd, if_false]
    cases hf0 : s.free ⟨c.PLANE_OVERLAY, 0⟩ <;> cases hf1 : s.free ⟨c.PLANE_OVERLAY, 1⟩ <;>
      simp [hf0, hf1]

/-- C8 for the primary pipeline with overlay 0 handed out and overlay 1 free: the
request falls back to overlay 1. -/
theorem getPlaneHelper_overlay_fallback_witness :
    (getPlaneHelper sampleEnums (busyManager [⟨1, 0⟩]) 0 1).1 = some ⟨1, 1⟩ :=
  (getPlaneHelper_overlay_fallback sampleEnums (busyManager [⟨1, 0⟩]) 0
    ⟨rfl, rfl, rfl, rfl⟩ (by decide) (by decide)).2.1 (by decide) (by decide)

/-- C9: in an initialised pool and for a pipeline id in the supported range,
`getPlaneHelper(dsp, Primary)` returns the primary plane at the preference index (0 for
the primary pipeline, 1 otherwise) or the null pointer, and it returns the null
pointer whenever that plane is busy, whatever the state of the other primary planes. -/
theorem getPlaneHelper_primary_no_fallback (c : Enums) (s : Manager) (dsp : Int)
    (hinit : Initialized c s) (h0 : 0 ≤ dsp) (h1 : dsp ≤ c.DEVICE_EXTERNAL) :
    ((getPlaneHelper c s dsp c.PLANE_PRIMARY).1 =
          some ⟨c.PLANE_PRIMARY, if dsp = c.DEVICE_PRIMARY then 0 else 1⟩ ∨
        (getPlaneHelper c s dsp c.PLANE_PRIMARY).1 = none) ∧
      (s.free ⟨c.PLANE_PRIMARY, if dsp = c.DEVICE_PRIMARY then 0 else 1⟩ = false →
        (getPlaneHelper c s dsp c.PLANE_PRIMARY).1 = none) := by
  obtain ⟨hi, _, _, _⟩ := hinit
  have hr : ¬ (dsp < 0 ∨ dsp > c.DEVICE_EXTERNAL) := by omega
  have hi2 : ¬ (s.mInitialized = false) := by simp [hi]
  unfold getPlaneHelper
  rw [if_neg hi2, if_neg hr]
  simp only [if_true]
  rw [getPlane_fst]
  unfold preferenceIndex
  constructor
  · by_cases hc : (if dsp = c.DEVICE_PRIMARY then 0 else 1) < s.planeCount c.PLANE_PRIMARY ∧
        s.free ⟨c.PLANE_PRIMARY, if dsp = c.DEVICE_PRIMARY then 0 else 1⟩ = true
    · left
      rw [if_pos hc]
    · right
      rw [if_neg hc]
  · intro hbusy
    rw [if_neg]
    rintro ⟨_, hfree⟩
    rw [hbusy] at hfree
    cases hfree

/-- C9 for the primary pipeline with primary plane 0 handed out and primary planes 1 and
2 free: the request finds no plane. -/
theorem getPlaneHelper_primary_no_fallback_witness :
    (busyManager [⟨2, 0⟩]).free ⟨2, 1⟩ = true ∧ (busyManager [⟨2, 0⟩]).free ⟨2, 2⟩ = true ∧
      (getPlaneHelper sampleEnums (busyManager [⟨2, 0⟩]) 0 2).1 = none :=
  ⟨by decide, by decide,
    (getPlaneHelper_primary_no_fallback sampleEnums (busyManager [⟨2, 0⟩]) 0
      ⟨rfl, rfl, rfl, rfl⟩ (by decide) (by decide)).2 (by decide)⟩

/-! ## Theorems: assignPlanes -/

theorem probe_eq_false_iff (c : Enums) (s : Manager) (dsp : Int) (config : ZOrderConfig) :
    probe c s dsp config = false ↔
      ∃ layer ∈ config, getFreePlanes c s dsp layer.planeType = 0 := by
  induction config with
  | nil => simp [probe]
  | cons x xs ih =>
    unfold probe
    by_cases hx : getFreePlanes c s dsp x.planeType = 0
    · simp [hx]
    · simp [hx, ih]

/-- C3: when some layer's requested type has no free plane for the pipeline, so that the
probe loop fails, `assignPlanes` returns false with the manager state (free and enabled
flags, Z-order state, trace) and the configuration (plane pointers and plane types) it
was given. -/
theorem assignPlanes_probe_failure_atomic (c : Enums) (s : Manager) (dsp : Int)
    (config : ZOrderConfig)
    (h : ∃ layer ∈ config, getFreePlanes c s dsp layer.planeType = 0) :
    assignPlanes c s dsp config = Outcome.returned false s config := by
  have hp : probe c s dsp config = false := (probe_eq_false_iff c s dsp config).mpr h
  unfold assignPlanes
  rw [if_pos hp]

/-- C3 with both overlay planes handed out and a request for one Overlay layer
(Scenario D). -/
theorem assignPlanes_probe_failure_atomic_witness :
    assignPlanes sampleEnums (busyManager [⟨1, 0⟩, ⟨1, 1⟩]) 0 [mkLayer 1] =
      Outcome.returned false (busyManager [⟨1, 0⟩, ⟨1, 1⟩]) [mkLayer 1] :=
  assignPlanes_probe_failure_atomic sampleEnums (busyManager [⟨1, 0⟩, ⟨1, 1⟩]) 0 [mkLayer 1]
    ⟨mkLayer 1, by decide, by decide⟩

theorem getPlaneHelper_sprite (c : Enums) (s : Manager) (dsp : Int)
    (hinit : s.mInitialized = true) (h0 : 0 ≤ dsp) (h1 : dsp ≤ c.DEVICE_EXTERNAL) :
    getPlaneHelper c s dsp c.PLANE_SPRITE = getAnyPlane s c.PLANE_SPRITE := by
  have hr : ¬ (dsp < 0 ∨ dsp > c.DEVICE_EXTERNAL) := by omega
  have hi : ¬ (s.mInitialized = false) := by simp [hinit]
  have hp : ¬ (c.PLANE_SPRITE = c.PLANE_PRIMARY) := fun h => c.primary_ne_sprite h.symm
  unfold getPlaneHelper
  rw [if_neg hi, if_neg hr]
  simp only [if_neg hp, if_true]

theorem getFreePlanes_ne_zero (c : Enums) (s : Manager) (dsp type : Int)
    (h : getFreePlanes c s dsp type ≠ 0) :
    s.mInitialized = true ∧ 0 ≤ dsp ∧ dsp ≤ c.DEVICE_EXTERNAL := by
  unfold getFreePlanes at h
  by_cases hi : s.mInitialized = false
  · rw [if_pos hi] at h
    exact absurd rfl h
  · rw [if_neg hi] at h
    by_cases hr : dsp < 0 ∨ dsp > c.DEVICE_EXTERNAL
    · rw [if_pos hr] at h
      exact absurd rfl h
    · refine ⟨by simpa using hi, by omega, by omega⟩

theorem getAnyPlane_of_free_count (c : Enums) (s : Manager) (dsp type : Int)
    (ht : type ≠ c.PLANE_PRIMARY) (h : getFreePlanes c s dsp type ≠ 0) :
    ∃ i : Nat, i < s.planeCount type ∧ s.free ⟨type, i⟩ = true ∧
      getAnyPlane s type = (some ⟨type, i⟩, takePlane s ⟨type, i⟩) := by
  obtain ⟨hi, h0, h1⟩ := getFreePlanes_ne_zero c s dsp type h
  have hr : ¬ (dsp < 0 ∨ dsp > c.DEVICE_EXTERNAL) := by omega
  have hi2 : ¬ (s.mInitialized = false) := by simp [hi]
  unfold getFreePlanes at h
  rw [if_neg hi2, if_neg hr, if_neg ht] at h
  cases hf : (List.range (s.planeCount type)).find? (fun i => s.free ⟨type, i⟩) with
  | none =>
    exfalso
    apply h
    rw [List.find?_eq_none] at hf
    have : (List.range (s.planeCount type)).filter (fun i => s.free ⟨type, i⟩) = [] := by
      rw [List.filter_eq_nil_iff]
      exact hf
    rw [this]
    rfl
  | some i =>
    have hmem := List.mem_of_find?_eq_some hf
    have hfree := List.find?_some hf
    refine ⟨i, List.mem_range.mp hmem, hfree, ?_⟩
    unfold getAnyPlane
    rw [hf]

/-- Lines 139-141 leave the configuration as it is. -/
theorem singleSpriteRewrite_eq (c : Enums) (config : ZOrderConfig) :
    singleSpriteRewrite c config = config := by
  unfold singleSpriteRewrite
  split
  · split <;> rfl
  · rfl

/-- C10: when the probe succeeds on a configuration of exactly one layer that requests
Sprite, `assignPlanes` returns true, the layer still requests Sprite, and it is bound to
the plane that the Sprite policy `getPlaneHelper(dsp, Sprite)` (that is `getAnyPlane`)
selects, a plane of type Sprite and not of type Primary; that plane is then enabled and
given the Z-order configuration. -/
theorem assignPlanes_single_sprite (c : Enums) (s : Manager) (dsp : Int)
    (layer : ZOrderLayer) (hs : layer.planeType = c.PLANE_SPRITE)
    (hp : probe c s dsp [layer] = true) :
    ∃ (i : Nat) (s1 : Manager),
      assignPlanes c s dsp [layer] =
          Outcome.returned true s1 [⟨c.PLANE_SPRITE, some ⟨c.PLANE_SPRITE, i⟩⟩] ∧
        (getPlaneHelper c s dsp c.PLANE_SPRITE).1 = some ⟨c.PLANE_SPRITE, i⟩ ∧
        (getAnyPlane s c.PLANE_SPRITE).1 = some ⟨c.PLANE_SPRITE, i⟩ ∧
        (⟨c.PLANE_SPRITE, i⟩ : DisplayPlane).type ≠ c.PLANE_PRIMARY ∧
        s1.trace = s.trace ++ [Event.bind 0 (some ⟨c.PLANE_SPRITE, i⟩),
          Event.enable ⟨c.PLANE_SPRITE, i⟩,
          Event.setZOrderConfig ⟨c.PLANE_SPRITE, i⟩
            [⟨c.PLANE_SPRITE, some ⟨c.PLANE_SPRITE, i⟩⟩]] := by
  have hfree : getFreePlanes c s dsp c.PLANE_SPRITE ≠ 0 := by
    intro h0
    unfold probe at hp
    rw [hs, if_pos h0] at hp
    cases hp
  obtain ⟨hi, h0, h1⟩ := getFreePlanes_ne_zero c s dsp c.PLANE_SPRITE hfree
  obtain ⟨i, _, _, hany⟩ :=
    getAnyPlane_of_free_count c s dsp c.PLANE_SPRITE (fun h => c.primary_ne_sprite h.symm) hfree
  have hhelper := getPlaneHelper_sprite c s dsp hi h0 h1
  have hpn : ¬ (probe c s dsp [layer] = false) := by simp [hp]
  have hrw : singleSpriteRewrite c [layer] = [layer] := singleSpriteRewrite_eq c [layer]
  refine ⟨i,
    setZOrderConfig
      (enable { takePlane s ⟨c.PLANE_SPRITE, i⟩ with
        trace := (takePlane s ⟨c.PLANE_SPRITE, i⟩).trace ++
          [Event.bind 0 (some ⟨c.PLANE_SPRITE, i⟩)] } ⟨c.PLANE_SPRITE, i⟩)
      ⟨c.PLANE_SPRITE, i⟩ [⟨c.PLANE_SPRITE, some ⟨c.PLANE_SPRITE, i⟩⟩],
    ?_, by rw [hhelper, hany], by rw [hany], fun h => c.primary_ne_sprite h.symm, ?_⟩
  · unfold assignPlanes
    rw [if_neg hpn, hrw]
    simp only [allocPass, hs, hhelper, hany, commitPass]
  · simp [enable, setZOrderConfig, takePlane]

/-- C10 on the fresh pool (one free sprite plane, three free primary planes) for the
primary pipeline (Scenario C). -/
theorem assignPlanes_single_sprite_witness :
    probe sampleEnums freshManager 0 [mkLayer 0] = true ∧
      ∃ (i : Nat) (s1 : Manager),
        assignPlanes sampleEnums freshManager 0 [mkLayer 0] =
            Outcome.returned true s1 [⟨0, some ⟨0, i⟩⟩] ∧
          (getPlaneHelper sampleEnums freshManager 0 0).1 = some ⟨0, i⟩ ∧
          (getAnyPlane freshManager 0).1 = some ⟨0, i⟩ ∧
          (⟨0, i⟩ : DisplayPlane).type ≠ 2 ∧
          s1.trace = freshManager.trace ++ [Event.bind 0 (some ⟨0, i⟩),
            Event.enable ⟨0, i⟩, Event.setZOrderConfig ⟨0, i⟩ [⟨0, some ⟨0, i⟩⟩]] :=
  ⟨by decide, assignPlanes_single_sprite sampleEnums freshManager 0 (mkLayer 0) rfl (by decide)⟩

theorem getPlane_frame (s : Manager) (type : Int) (index : Nat) :
    (getPlane s type index).2.enabled = s.enabled ∧
      (getPlane s type index).2.trace = s.trace ∧
      (getPlane s type index).2.mZorder = s.mZorder ∧
      (getPlane s type index).2.mInitialized = s.mInitialized ∧
      (getPlane s type index).2.planeCount = s.planeCount := by
  unfold getPlane
  split <;> exact ⟨rfl, rfl, rfl, rfl, rfl⟩

theorem getAnyPlane_frame (s : Manager) (type : Int) :
    (getAnyPlane s type).2.enabled = s.enabled ∧
      (getAnyPlane s type).2.trace = s.trace ∧
      (getAnyPlane s type).2.mZorder = s.mZorder ∧
      (getAnyPlane s type).2.mInitialized = s.mInitialized ∧
      (getAnyPlane s type).2.planeCount = s.planeCount := by
  unfold getAnyPlane
  split <;> exact ⟨rfl, rfl, rfl, rfl, rfl⟩

/-- The selection policy touches the free flags only. -/
theorem getPlaneHelper_frame (c : Enums) (s : Manager) (dsp type : Int) :
    (getPlaneHelper c s dsp type).2.enabled = s.enabled ∧
      (getPlaneHelper c s dsp type).2.trace = s.trace ∧
      (getPlaneHelper c s dsp type).2.mZorder = s.mZorder ∧
      (getPlaneHelper c s dsp type).2.mInitialized = s.mInitialized ∧
      (getPlaneHelper c s dsp type).2.planeCount = s.planeCount := by
  unfold getPlaneHelper
  split
  · exact ⟨rfl, rfl, rfl, rfl, rfl⟩
  · split
    · exact ⟨rfl, rfl, rfl, rfl, rfl⟩
    · simp only []
      split
      · exact getPlane_frame s type _
      · split
        · exact getAnyPlane_frame s type
        · split
          · split
            · rename_i plane s1 heq
              have h := getPlane_frame s type (preferenceIndex c dsp)
              rw [heq] at h
              exact h
            · rename_i s1 heq
              have h := getPlane_frame s type (preferenceIndex c dsp)
              rw [heq] at h
              have h2 := getPlane_frame s1 type (if preferenceIndex c dsp = 0 then 1 else 0)
              simp only [] at h
              obtain ⟨a1, a2, a3, a4, a5⟩ := h
              obtain ⟨b1, b2, b3, b4, b5⟩ := h2
              exact ⟨b1.trans a1, b2.trans a2, b3.trans a3, b4.trans a4, b5.trans a5⟩
          · exact ⟨rfl, rfl, rfl, rfl, rfl⟩

/-- When the allocation loop runs to its end, the layers keep their types and order,
every layer is bound to a plane that is enabled, planes enabled before stay enabled, and
the trace has only grown. -/
theorem allocPass_ok (c : Enums) (dsp : Int) (config : ZOrderConfig) :
    ∀ (s : Manager) (i : Nat) (s1 : Manager) (config1 : ZOrderConfig),
      allocPass c dsp s i config = Except.ok (s1, config1) →
      config1.map (fun layer => layer.planeType) = config.map (fun layer => layer.planeType) ∧
        (∀ layer ∈ config1, ∃ p, layer.plane = some p ∧ s1.enabled p = true) ∧
        (∀ p, s.enabled p = true → s1.enabled p = true) ∧
        (∃ evs, s1.trace = s.trace ++ evs) ∧
        s1.mZorder = s.mZorder := by
  induction config with
  | nil =>
    intro s i s1 config1 h
    simp only [allocPass, Except.ok.injEq, Prod.mk.injEq] at h
    obtain ⟨rfl, rfl⟩ := h
    exact ⟨rfl, by simp, fun _ hp => hp, ⟨[], by simp⟩, rfl⟩
  | cons x xs ih =>
    intro s i s1 config1 h
    obtain ⟨fe, ft, fz, _, _⟩ := getPlaneHelper_frame c s dsp x.planeType
    unfold allocPass at h
    simp only [] at h
    cases hr : (getPlaneHelper c s dsp x.planeType).1 with
    | none =>
      rw [hr] at h
      simp at h
    | some p =>
      rw [hr] at h
      simp only [] at h
      cases hrec : allocPass c dsp
          (enable { (getPlaneHelper c s dsp x.planeType).2 with
            trace := (getPlaneHelper c s dsp x.planeType).2.trace ++ [Event.bind i (some p)] } p)
          (i + 1) xs with
      | error e =>
        rw [hrec] at h
        simp at h
      | ok r =>
        obtain ⟨s2, rest1⟩ := r
        rw [hrec] at h
        simp only [Except.ok.injEq, Prod.mk.injEq] at h
        obtain ⟨rfl, rfl⟩ := h
        obtain ⟨hty, hen, hmono, ⟨evs, htr⟩, hz⟩ := ih _ _ _ _ hrec
        refine ⟨by simp [hty], ?_, ?_, ?_, ?_⟩
        · intro layer hl
          rcases List.mem_cons.mp hl with rfl | hl
          · exact ⟨p, rfl, hmono p (by simp [enable])⟩
          · exact hen layer hl
        · intro q hq
          apply hmono
          simp only [enable]
          split
          · rfl
          · rw [fe]; exact hq
        · refine ⟨[Event.bind i (some p), Event.enable p] ++ evs, ?_⟩
          rw [htr]
          simp [enable, ft]
        · rw [hz]
          simp [enable, fz]

/-- When the Z-order loop runs to its end, the enabled flags are as before and every
plane of the layers it went over has been given the whole configuration. -/
theorem commitPass_ok (config : ZOrderConfig) (l : ZOrderConfig) :
    ∀ (s s2 : Manager), commitPass config s l = Except.ok s2 →
      s2.enabled = s.enabled ∧
        (l ≠ [] → s2.mZorder = config.map (fun layer => layer.plane)) ∧
        ∃ evs, s2.trace = s.trace ++ evs ∧
          ∀ layer ∈ l, ∀ p, layer.plane = some p → Event.setZOrderConfig p config ∈ evs := by
  induction l with
  | nil =>
    intro s s2 h
    simp only [commitPass, Except.ok.injEq] at h
    subst h
    exact ⟨rfl, fun h => absurd rfl h, [], by simp, by simp⟩
  | cons x xs ih =>
    intro s s2 h
    unfold commitPass at h
    cases hx : x.plane with
    | none =>
      rw [hx] at h
      simp at h
    | some p =>
      rw [hx] at h
      simp only [] at h
      obtain ⟨hen, hz, evs, htr, hev⟩ := ih _ _ h
      refine ⟨by rw [hen]; rfl, ?_, [Event.setZOrderConfig p config] ++ evs, ?_, ?_⟩
      · intro _
        by_cases hxs : xs = []
        · subst hxs
          simp only [commitPass, Except.ok.injEq] at h
          subst h
          rfl
        · exact hz hxs
      · rw [htr]
        simp [setZOrderConfig]
      · intro layer hl q hq
        rcases List.mem_cons.mp hl with rfl | hl
        · rw [hx] at hq
          cases hq
          simp
        · exact List.mem_append_right _ (hev layer hl q hq)

/-- C5: when `assignPlanes` returns true, the configuration it leaves holds the same
layer types in the same order, every layer bound to a plane has that plane enabled, and
during the call every such plane was given `setZOrderConfig` with that complete
configuration (and `mZorder`, the only Z-order state); for a non-empty configuration
the Z-order state then records the plane of every position. -/
theorem assignPlanes_true_enabled_committed (c : Enums) (s : Manager) (dsp : Int)
    (config : ZOrderConfig) (h : (assignPlanes c s dsp config).value = some true) :
    ∃ (s1 : Manager) (config1 : ZOrderConfig) (evs : List Event),
      assignPlanes c s dsp config = Outcome.returned true s1 config1 ∧
        config1.map (fun layer => layer.planeType) =
          config.map (fun layer => layer.planeType) ∧
        s1.trace = s.trace ++ evs ∧
        (∀ layer ∈ config1, ∀ p, layer.plane = some p →
          s1.enabled p = true ∧ Event.setZOrderConfig p config1 ∈ evs) ∧
        (config ≠ [] → s1.mZorder = config1.map (fun layer => layer.plane)) := by
  unfold assignPlanes at h ⊢
  rw [singleSpriteRewrite_eq] at h ⊢
  by_cases hp : probe c s dsp config = false
  · rw [if_pos hp] at h
    simp [Outcome.value] at h
  · rw [if_neg hp] at h ⊢
    cases ha : allocPass c dsp s 0 config with
    | error e =>
      rw [ha] at h
      simp [Outcome.value] at h
    | ok r =>
      obtain ⟨s1, config1⟩ := r
      rw [ha] at h
      simp only [] at h ⊢
      cases hc : commitPass config1 s1 config1 with
      | error e =>
        rw [hc] at h
        simp [Outcome.value] at h
      | ok s2 =>
        obtain ⟨hty, hen, _, ⟨evs1, htr1⟩, _⟩ := allocPass_ok c dsp config s 0 s1 config1 ha
        obtain ⟨hen2, hz, evs2, htr2, hev⟩ := commitPass_ok config1 config1 s1 s2 hc
        refine ⟨s2, config1, evs1 ++ evs2, rfl, hty, ?_, ?_, ?_⟩
        · rw [htr2, htr1, List.append_assoc]
        · intro layer hl p hpl
          obtain ⟨q, hq, hqe⟩ := hen layer hl
          rw [hpl] at hq
          cases hq
          exact ⟨by rw [hen2]; exact hqe, List.mem_append_right _ (hev layer hl p hpl)⟩
        · intro hne
          apply hz
          intro hnil
          rw [hnil] at hty
          simp at hty
          exact hne hty

/-- C5 on the fresh pool for [Overlay, Primary] on the primary pipeline. -/
theorem assignPlanes_true_enabled_committed_witness :
    ∃ (s1 : Manager) (config1 : ZOrderConfig) (evs : List Event),
      assignPlanes sampleEnums freshManager 0 [mkLayer 1, mkLayer 2] =
          Outcome.returned true s1 config1 ∧
        config1.map (fun layer => layer.planeType) =
          ([mkLayer 1, mkLayer 2] : ZOrderConfig).map (fun layer => layer.planeType) ∧
        s1.trace = freshManager.trace ++ evs ∧
        (∀ layer ∈ config1, ∀ p, layer.plane = some p →
          s1.enabled p = true ∧ Event.setZOrderConfig p config1 ∈ evs) ∧
        (([mkLayer 1, mkLayer 2] : ZOrderConfig) ≠ [] →
          s1.mZorder = config1.map (fun layer => layer.plane)) :=
  assignPlanes_true_enabled_committed sampleEnums freshManager 0 [mkLayer 1, mkLayer 2]
    (by decide)

/-- C2 at the failing input: on the fresh pool (one sprite plane) the configuration
[Sprite, Sprite] passes `isValidZOrder` and the probe loop, yet in the allocation loop
`getPlaneHelper` returns the null pointer for the layer at position 1 (the trace ends
with that write), and the call ends in the null dereference of line 153. -/
theorem assignPlanes_two_sprites_unresolved :
    isValidZOrder sampleEnums 0 [mkLayer 0, mkLayer 0] = true ∧
      probe sampleEnums freshManager 0 [mkLayer 0, mkLayer 0] = true ∧
      (assignPlanes sampleEnums freshManager 0 [mkLayer 0, mkLayer 0]).manager.trace =
        [Event.bind 0 (some ⟨0, 0⟩), Event.enable ⟨0, 0⟩, Event.bind 1 none] ∧
      (assignPlanes sampleEnums freshManager 0 [mkLayer 0, mkLayer 0]).config =
        [⟨0, some ⟨0, 0⟩⟩, ⟨0, none⟩] := by
  decide

/-- C4 at the failing input: on the fresh pool (two overlay planes) the probe loop
succeeds for [Overlay, Overlay, Overlay], `getPlaneHelper` returns the null pointer for
the layer at position 2, and `assignPlanes` does not return true: it calls `enable()`
through the null pointer and returns nothing. -/
theorem assignPlanes_three_overlays_no_return :
    probe sampleEnums freshManager 0 [mkLayer 1, mkLayer 1, mkLayer 1] = true ∧
      (assignPlanes sampleEnums freshManager 0 [mkLayer 1, mkLayer 1, mkLayer 1]).value =
        none ∧
      (assignPlanes sampleEnums freshManager 0
          [mkLayer 1, mkLayer 1, mkLayer 1]).manager.trace =
        [Event.bind 0 (some ⟨1, 0⟩), Event.enable ⟨1, 0⟩, Event.bind 1 (some ⟨1, 1⟩),
          Event.enable ⟨1, 1⟩, Event.bind 2 none] := by
  decide

/-! ## Theorems: remaining properties of getPlaneHelper and allocPlane -/

/-- C11: for every pool state, `getPlaneHelper` returns the null pointer and leaves the
manager state (the free flags included) as it was whenever the pipeline id is out of
range (`dsp < 0` or `dsp > DEVICE_EXTERNAL`, for any type) or, for a pipeline id in
range, whenever the type is none of Primary, Sprite, Overlay. -/
theorem getPlaneHelper_invalid_argument (c : Enums) (s : Manager) (dsp type : Int)
    (h : (dsp < 0 ∨ dsp > c.DEVICE_EXTERNAL) ∨
      (0 ≤ dsp ∧ dsp ≤ c.DEVICE_EXTERNAL ∧ type ≠ c.PLANE_PRIMARY ∧
        type ≠ c.PLANE_SPRITE ∧ type ≠ c.PLANE_OVERLAY)) :
    getPlaneHelper c s dsp type = (none, s) := by
  unfold getPlaneHelper
  split
  · rfl
  · rcases h with h | ⟨h0, h1, hp, hs, ho⟩
    · rw [if_pos h]
    · have hr : ¬ (dsp < 0 ∨ dsp > c.DEVICE_EXTERNAL) := by omega
      rw [if_neg hr]
      simp only [if_neg hp, if_neg hs, if_neg ho]

/-- C11 for pipeline id 2 (above `DEVICE_EXTERNAL`) on the fresh pool, type Overlay. -/
theorem getPlaneHelper_invalid_argument_witness :
    getPlaneHelper sampleEnums freshManager 2 1 = (none, freshManager) :=
  getPlaneHelper_invalid_argument sampleEnums freshManager 2 1 (Or.inl (by decide))

/-- C13: in an initialised pool, `getPlaneHelper(dsp, Sprite)` is `getAnyPlane(Sprite)`
for every pipeline id in the supported range, so two such pipelines get the same
result; the result is a free sprite plane whenever one exists, and the null pointer
otherwise. -/
theorem getPlaneHelper_sprite_any_pipeline (c : Enums) (s : Manager) (dsp1 dsp2 : Int)
    (hinit : Initialized c s) (h1 : 0 ≤ dsp1 ∧ dsp1 ≤ c.DEVICE_EXTERNAL)
    (h2 : 0 ≤ dsp2 ∧ dsp2 ≤ c.DEVICE_EXTERNAL) :
    getPlaneHelper c s dsp1 c.PLANE_SPRITE = getPlaneHelper c s dsp2 c.PLANE_SPRITE ∧
      getPlaneHelper c s dsp1 c.PLANE_SPRITE = getAnyPlane s c.PLANE_SPRITE ∧
      ((∃ i, i < s.planeCount c.PLANE_SPRITE ∧ s.free ⟨c.PLANE_SPRITE, i⟩ = true) →
        ∃ i, i < s.planeCount c.PLANE_SPRITE ∧ s.free ⟨c.PLANE_SPRITE, i⟩ = true ∧
          (getPlaneHelper c s dsp1 c.PLANE_SPRITE).1 = some ⟨c.PLANE_SPRITE, i⟩) ∧
      ((¬ ∃ i, i < s.planeCount c.PLANE_SPRITE ∧ s.free ⟨c.PLANE_SPRITE, i⟩ = true) →
        (getPlaneHelper c s dsp1 c.PLANE_SPRITE).1 = none) := by
  have e1 := getPlaneHelper_sprite c s dsp1 hinit.1 h1.1 h1.2
  have e2 := getPlaneHelper_sprite c s dsp2 hinit.1 h2.1 h2.2
  refine ⟨e1.trans e2.symm, e1, ?_, ?_⟩
  · rintro ⟨k, hk, hfree⟩
    rw [e1]
    unfold getAnyPlane
    cases hf : (List.range (s.planeCount c.PLANE_SPRITE)).find?
        (fun i => s.free ⟨c.PLANE_SPRITE, i⟩) with
    | none =>
      rw [List.find?_eq_none] at hf
      have := hf k (List.mem_range.mpr hk)
      simp [hfree] at this
    | some i =>
      have hfr := List.find?_some hf
      exact ⟨i, List.mem_range.mp (List.mem_of_find?_eq_some hf), hfr, rfl⟩
  · intro hno
    rw [e1]
    unfold getAnyPlane
    cases hf : (List.range (s.planeCount c.PLANE_SPRITE)).find?
        (fun i => s.free ⟨c.PLANE_SPRITE, i⟩) with
    | none => rfl
    | some i =>
      have hfr := List.find?_some hf
      exact absurd ⟨i, List.mem_range.mp (List.mem_of_find?_eq_some hf), hfr⟩ hno

/-- C13 on the fresh pool for the primary and the external pipeline. -/
theorem getPlaneHelper_sprite_any_pipeline_witness :
    getPlaneHelper sampleEnums freshManager 0 0 = getPlaneHelper sampleEnums freshManager 1 0 :=
  (getPlaneHelper_sprite_any_pipeline sampleEnums freshManager 0 1 ⟨rfl, rfl, rfl, rfl⟩
    (by decide) (by decide)).1

/-- The value of `allocPlane` for each kind of type: for a supported type the plane of
that class with the requested index when its initialisation succeeds and the null
pointer when it fails; for any other type the null pointer. -/
theorem allocPlane_eq (c : Enums) (hwInit : PlaneObject → Bool) (index type : Int) :
    allocPlane c hwInit index type =
      if type = c.PLANE_PRIMARY ∨ type = c.PLANE_SPRITE ∨ type = c.PLANE_OVERLAY then
        if hwInit ⟨type, index, if type = c.PLANE_PRIMARY then index else 0⟩ = true then
          some ⟨type, index, if type = c.PLANE_PRIMARY then index else 0⟩
        else none
      else none := by
  unfold allocPlane
  by_cases h1 : type = c.PLANE_PRIMARY
  · subst h1
    simp only [if_true, true_or]
    cases hw : hwInit ⟨c.PLANE_PRIMARY, index, index⟩ <;> simp
  · by_cases h2 : type = c.PLANE_SPRITE
    · subst h2
      simp only [if_neg h1, if_true, true_or, or_true]
      cases hw : hwInit ⟨c.PLANE_SPRITE, index, 0⟩ <;> simp
    · by_cases h3 : type = c.PLANE_OVERLAY
      · subst h3
        simp only [if_neg h1, if_neg h2, if_true, or_true]
        cases hw : hwInit ⟨c.PLANE_OVERLAY, index, 0⟩ <;> simp
      · simp [h1, h2, h3]

/-- C15: `allocPlane` returns a plane exactly when the type is Primary, Sprite or
Overlay and the initialisation of the plane built for it succeeds, and the plane it
then returns is that plane, with the requested type and index; for any other type, and
when the initialisation fails, it returns the null pointer. The plane built for a type
and an index has the second constructor argument `index` for Primary and 0 otherwise. -/
theorem allocPlane_some_iff (c : Enums) (hwInit : PlaneObject → Bool) (index type : Int) :
    ((∃ p, allocPlane c hwInit index type = some p) ↔
        ((type = c.PLANE_PRIMARY ∨ type = c.PLANE_SPRITE ∨ type = c.PLANE_OVERLAY) ∧
          hwInit ⟨type, index, if type = c.PLANE_PRIMARY then index else 0⟩ = true)) ∧
      ((type = c.PLANE_PRIMARY ∨ type = c.PLANE_SPRITE ∨ type = c.PLANE_OVERLAY) →
        hwInit ⟨type, index, if type = c.PLANE_PRIMARY then index else 0⟩ = true →
        allocPlane c hwInit index type =
          some ⟨type, index, if type = c.PLANE_PRIMARY then index else 0⟩) ∧
      ((type ≠ c.PLANE_PRIMARY ∧ type ≠ c.PLANE_SPRITE ∧ type ≠ c.PLANE_OVERLAY) →
        allocPlane c hwInit index type = none) ∧
      (hwInit ⟨type, index, if type = c.PLANE_PRIMARY then index else 0⟩ = false →
        allocPlane c hwInit index type = none) ∧
      (∀ p, allocPlane c hwInit index type = some p → p.type = type ∧ p.index = index) := by
  rw [allocPlane_eq]
  by_cases ht : type = c.PLANE_PRIMARY ∨ type = c.PLANE_SPRITE ∨ type = c.PLANE_OVERLAY
  · rw [if_pos ht]
    cases hw : hwInit ⟨type, index, if type = c.PLANE_PRIMARY then index else 0⟩
    · refine ⟨?_, ?_, ?_, ?_, ?_⟩
      · simp
      · intro _ h; cases h
      · intro _; simp
      · intro _; simp
      · intro p hp; simp at hp
    · refine ⟨?_, ?_, ?_, ?_, ?_⟩
      · simp [ht]
      · intro _ _; simp
      · rintro ⟨h1, h2, h3⟩
        rcases ht with h | h | h
        · exact absurd h h1
        · exact absurd h h2
        · exact absurd h h3
      · intro h; cases h
      · intro p hp
        simp only [if_true, Option.some.injEq] at hp
        subst hp
        exact ⟨rfl, rfl⟩
  · rw [if_neg ht]
    refine ⟨?_, ?_, ?_, ?_, ?_⟩
    · simp [ht]
    · intro h; exact absurd h ht
    · intro _; rfl
    · intro _; rfl
    · intro p hp; cases hp

/-! ## Theorems: remaining properties of isValidZOrder -/

/-- For every configuration: `isValidZOrder` returns true exactly when there is at
least one RGB-capable or Overlay layer and the RGB-capable layers are all below, or
all above, the Overlay layers. -/
theorem isValidZOrder_iff_general (c : Enums) (dsp : Int) (config : ZOrderConfig) :
    isValidZOrder c dsp config = true ↔
      ((∃ a ∈ config, isRGB c a ∨ isOverlay c a) ∧
        ((∀ (i j : Nat) (a b : ZOrderLayer), config[i]? = some a → config[j]? = some b →
            isRGB c a → isOverlay c b → i < j) ∨
          (∀ (i j : Nat) (a b : ZOrderLayer), config[i]? = some a → config[j]? = some b →
            isRGB c a → isOverlay c b → j < i))) := by
  rw [isValidZOrder_eq_true_iff]
  obtain ⟨hr, ho⟩ := scan_spec c config
  generalize scan c ⟨-1, -1, -1, -1⟩ 0 config = sp at hr ho ⊢
  rcases hr with ⟨hrf, hrt, hrno⟩ | ⟨rf, rt, hrf, hrt, ⟨a, ha, hpa⟩, ⟨b, hb, hpb⟩, hrall⟩ <;>
  rcases ho with ⟨hof, hot, hono⟩ | ⟨ovf, ovt, hof, hot, ⟨a2, ha2, hpa2⟩, ⟨b2, hb2, hpb2⟩, hoall⟩
  · constructor
    · intro hv
      omega
    · rintro ⟨⟨x, hx, hp⟩, _⟩
      obtain ⟨k, hk⟩ := List.getElem?_of_mem hx
      rcases hp with hp | hp
      · exact absurd hp (hrno k x hk)
      · exact absurd hp (hono k x hk)
  · constructor
    · intro _
      refine ⟨⟨a2, List.getElem?_mem ha2, Or.inr hpa2⟩, Or.inl ?_⟩
      intro i j x y hi _ hx _
      exact absurd hx (hrno i x hi)
    · intro _
      left
      omega
  · constructor
    · intro _
      refine ⟨⟨a, List.getElem?_mem ha, Or.inl hpa⟩, Or.inl ?_⟩
      intro i j x y _ hj _ hy
      exact absurd hy (hono j y hj)
    · intro _
      right
      omega
  · constructor
    · intro hv
      refine ⟨⟨a, List.getElem?_mem ha, Or.inl hpa⟩, ?_⟩
      rcases hv with h | h
      · left
        intro i j x y hi hj hx hy
        have h1 := hrall i x hi hx
        have h2 := hoall j y hj hy
        omega
      · right
        intro i j x y hi hj hx hy
        have h1 := hrall i x hi hx
        have h2 := hoall j y hj hy
        omega
    · rintro ⟨_, h | h⟩
      · left
        have := h rt ovf b a2 hb ha2 hpb hpa2
        omega
      · right
        have := h rf ovt a b2 ha hb2 hpa hpb2
        omega

/-- C12 fails as stated: a single layer whose `planeType` is none of the three plane
tags (here 7) is reported invalid. -/
theorem isValidZOrder_single_unknown_layer_false :
    ([mkLayer 7] : ZOrderConfig).length = 1 ∧
      isValidZOrder sampleEnums 0 [mkLayer 7] = false := by
  decide

/-- C12, amended: for a configuration of exactly one layer, `isValidZOrder` returns true
exactly when the layer's `planeType` is Primary, Sprite or Overlay. -/
theorem isValidZOrder_single_layer (c : Enums) (dsp : Int) (layer : ZOrderLayer) :
    isValidZOrder c dsp [layer] = true ↔
      (layer.planeType = c.PLANE_PRIMARY ∨ layer.planeType = c.PLANE_SPRITE ∨
        layer.planeType = c.PLANE_OVERLAY) := by
  rw [isValidZOrder_iff_general]
  constructor
  · rintro ⟨⟨a, ha, hp⟩, _⟩
    rw [List.mem_singleton] at ha
    subst ha
    rcases hp with (h | h) | h
    · exact Or.inl h
    · exact Or.inr (Or.inl h)
    · exact Or.inr (Or.inr h)
  · intro h
    have hk : isRGB c layer ∨ isOverlay c layer := by
      rcases h with h | h | h
      · exact Or.inl (Or.inl h)
      · exact Or.inl (Or.inr h)
      · exact Or.inr h
    refine ⟨⟨layer, List.mem_singleton.mpr rfl, hk⟩, Or.inl ?_⟩
    intro i j a b hi hj ha hb
    have hi2 := getElem?_lt_length [layer] i a hi
    have hj2 := getElem?_lt_length [layer] j b hj
    simp only [List.length_singleton] at hi2 hj2
    have hi0 : i = 0 := by omega
    have hj0 : j = 0 := by omega
    subst hi0 hj0
    rw [hi] at hj
    cases hj
    exact absurd hb (isRGB_not_isOverlay c a ha)

theorem getElem?_reverse_mirror {α : Type} (l : List α) (i : Nat) (a : α)
    (h : l[i]? = some a) : l.reverse[l.length - 1 - i]? = some a := by
  have hi := getElem?_lt_length l i a h
  rw [List.getElem?_reverse (by omega)]
  have : l.length - 1 - (l.length - 1 - i) = i := by omega
  rw [this]
  exact h

theorem bands_reverse_below (c : Enums) (l : ZOrderConfig)
    (h : ∀ (i j : Nat) (a b : ZOrderLayer), l[i]? = some a → l[j]? = some b →
      isRGB c a → isOverlay c b → i < j) :
    ∀ (i j : Nat) (a b : ZOrderLayer), l.reverse[i]? = some a → l.reverse[j]? = some b →
      isRGB c a → isOverlay c b → j < i := by
  intro i j a b hi hj ha hb
  have hi1 := getElem?_lt_length _ i a hi
  have hj1 := getElem?_lt_length _ j b hj
  have hi2 := getElem?_reverse_mirror _ i a hi
  have hj2 := getElem?_reverse_mirror _ j b hj
  rw [List.reverse_reverse] at hi2 hj2
  have := h _ _ a b hi2 hj2 ha hb
  omega

theorem bands_reverse_above (c : Enums) (l : ZOrderConfig)
    (h : ∀ (i j : Nat) (a b : ZOrderLayer), l[i]? = some a → l[j]? = some b →
      isRGB c a → isOverlay c b → j < i) :
    ∀ (i j : Nat) (a b : ZOrderLayer), l.reverse[i]? = some a → l.reverse[j]? = some b →
      isRGB c a → isOverlay c b → i < j := by
  intro i j a b hi hj ha hb
  have hi1 := getElem?_lt_length _ i a hi
  have hj1 := getElem?_lt_length _ j b hj
  have hi2 := getElem?_reverse_mirror _ i a hi
  have hj2 := getElem?_reverse_mirror _ j b hj
  rw [List.reverse_reverse] at hi2 hj2
  have := h _ _ a b hi2 hj2 ha hb
  omega

theorem isValidZOrder_reverse_true (c : Enums) (dsp : Int) (config : ZOrderConfig)
    (h : isValidZOrder c dsp config = true) : isValidZOrder c dsp config.reverse = true := by
  rw [isValidZOrder_iff_general] at h ⊢
  obtain ⟨⟨a, ha, hp⟩, hb⟩ := h
  refine ⟨⟨a, List.mem_reverse.mpr ha, hp⟩, ?_⟩
  rcases hb with hb | hb
  · exact Or.inr (bands_reverse_below c config hb)
  · exact Or.inl (bands_reverse_above c config hb)

/-- C19: `isValidZOrder` gives the same result on a configuration and on the
configuration with its layers in reversed order. -/
theorem isValidZOrder_reverse (c : Enums) (dsp : Int) (config : ZOrderConfig) :
    isValidZOrder c dsp config.reverse = isValidZOrder c dsp config := by
  cases h : isValidZOrder c dsp config with
  | true => exact isValidZOrder_reverse_true c dsp config h
  | false =>
    cases h2 : isValidZOrder c dsp config.reverse with
    | false => rfl
    | true =>
      have := isValidZOrder_reverse_true c dsp config.reverse h2
      rw [List.reverse_reverse, h] at this
      cases this

theorem isValidZOrderLoop_eq (c : Enums) (fuel : Nat) :
    ∀ (st : ValidatorState) (i : Nat), st.config.length - i ≤ fuel →
      isValidZOrderLoop c st i fuel =
        ⟨st.mgr, st.config, scan c st.spans i (st.config.drop i)⟩ := by
  induction fuel with
  | zero =>
    intro st i h
    have hd : st.config.drop i = [] := List.drop_eq_nil_of_le (by omega)
    rw [hd]
    rfl
  | succ n ih =>
    intro st i h
    unfold isValidZOrderLoop
    by_cases hi : i < st.config.length
    · rw [if_pos hi]
      have hget : st.config[i]? = some st.config[i] := List.getElem?_eq_getElem hi
      have hbody : isValidZOrderBody c st i =
          ⟨st.mgr, st.config, scanStep c st.spans i st.config[i]⟩ := by
        unfold isValidZOrderBody
        rw [hget]
      rw [hbody, ih _ _ (by simp only []; omega)]
      have hd : st.config.drop i = st.config[i] :: st.config.drop (i + 1) :=
        List.drop_eq_getElem_cons hi
      rw [hd]
      simp only [scan]
      congr 2
    · rw [if_neg hi]
      have hd : st.config.drop i = [] := List.drop_eq_nil_of_le (by omega)
      rw [hd]
      rfl

/-- C14: run on the memory it can reach, with fuel for at least one iteration per layer,
`isValidZOrder` returns its boolean result and leaves the manager (free and enabled
flags, Z-order state, trace) and every layer of the configuration (plane types and plane
pointers) as they were. -/
theorem isValidZOrderRun_pure (c : Enums) (fuel : Nat) (s : Manager) (dsp : Int)
    (config : ZOrderConfig) (hfuel : config.length ≤ fuel) :
    isValidZOrderRun c fuel s dsp config = (isValidZOrder c dsp config, s, config) := by
  unfold isValidZOrderRun isValidZOrder
  rw [isValidZOrderLoop_eq c fuel _ 0 (by simp only []; omega)]
  simp only [List.drop_zero, Nat.cast_zero]

/-- C14 on the fresh pool for [Primary, Overlay, Sprite]. -/
theorem isValidZOrderRun_pure_witness :
    isValidZOrderRun sampleEnums 3 freshManager 0 [mkLayer 2, mkLayer 1, mkLayer 0] =
      (isValidZOrder sampleEnums 0 [mkLayer 2, mkLayer 1, mkLayer 0], freshManager,
        [mkLayer 2, mkLayer 1, mkLayer 0]) :=
  isValidZOrderRun_pure sampleEnums 3 freshManager 0 [mkLayer 2, mkLayer 1, mkLayer 0]
    (by decide)

/-! ## Theorems: remaining properties of assignPlanes -/

/-- C16 at the failing input: on the fresh pool, for the primary pipeline and
[Primary, Primary, Overlay], the configuration is valid and the probe succeeds, the
layer at position 1 gets the null pointer, and the call then ends in the null
dereference of line 153: the Overlay layer at position 2 is never bound or enabled
although both overlay planes are free, and no `setZOrderConfig` is issued. -/
theorem assignPlanes_unresolved_layer_stops_run :
    isValidZOrder sampleEnums 0 [mkLayer 2, mkLayer 2, mkLayer 1] = true ∧
      probe sampleEnums freshManager 0 [mkLayer 2, mkLayer 2, mkLayer 1] = true ∧
      (assignPlanes sampleEnums freshManager 0 [mkLayer 2, mkLayer 2, mkLayer 1]).value =
        none ∧
      (assignPlanes sampleEnums freshManager 0 [mkLayer 2, mkLayer 2, mkLayer 1]).config =
        [⟨2, some ⟨2, 0⟩⟩, ⟨2, none⟩, ⟨1, none⟩] ∧
      (assignPlanes sampleEnums freshManager 0
          [mkLayer 2, mkLayer 2, mkLayer 1]).manager.trace =
        [Event.bind 0 (some ⟨2, 0⟩), Event.enable ⟨2, 0⟩, Event.bind 1 none] ∧
      (assignPlanes sampleEnums freshManager 0
          [mkLayer 2, mkLayer 2, mkLayer 1]).manager.free ⟨1, 0⟩ = true ∧
      (assignPlanes sampleEnums freshManager 0
          [mkLayer 2, mkLayer 2, mkLayer 1]).manager.free ⟨1, 1⟩ = true := by
  decide

theorem length_allocEvents (planes : List DisplayPlane) :
    ∀ i : Nat, (allocEvents i planes).length = 2 * planes.length := by
  induction planes with
  | nil => intro i; rfl
  | cons p ps ih =>
    intro i
    simp only [allocEvents, List.length_cons, ih]
    omega

theorem length_commitEvents (config : ZOrderConfig) (planes : List DisplayPlane) :
    (commitEvents config planes).length = planes.length := by
  simp [commitEvents]

theorem mem_allocEvents (planes : List DisplayPlane) :
    ∀ (i : Nat) (e : Event), e ∈ allocEvents i planes →
      ∀ (q : DisplayPlane) (cfg : ZOrderConfig), e ≠ Event.setZOrderConfig q cfg := by
  induction planes with
  | nil => intro i e he; simp [allocEvents] at he
  | cons p ps ih =>
    intro i e he q cfg
    simp only [allocEvents, List.mem_cons] at he
    rcases he with rfl | rfl | he
    · intro h; cases h
    · intro h; cases h
    · exact ih _ e he q cfg

theorem mem_commitEvents (config : ZOrderConfig) (planes : List DisplayPlane) (e : Event)
    (he : e ∈ commitEvents config planes) : ∀ p : DisplayPlane, e ≠ Event.enable p := by
  intro p h
  simp only [commitEvents, List.mem_map] at he
  obtain ⟨q, _, hq⟩ := he
  rw [h] at hq
  cases hq

/-- When the allocation loop runs to its end, its events are, for each layer in order,
the write of the plane pointer and then `enable()` on that plane. -/
theorem allocPass_trace (c : Enums) (dsp : Int) (config : ZOrderConfig) :
    ∀ (s : Manager) (i : Nat) (s1 : Manager) (config1 : ZOrderConfig),
      allocPass c dsp s i config = Except.ok (s1, config1) →
      ∃ planes : List DisplayPlane,
        config1.map (fun layer => layer.plane) = planes.map some ∧
          s1.trace = s.trace ++ allocEvents i planes := by
  induction config with
  | nil =>
    intro s i s1 config1 h
    simp only [allocPass, Except.ok.injEq, Prod.mk.injEq] at h
    obtain ⟨rfl, rfl⟩ := h
    exact ⟨[], rfl, by simp [allocEvents]⟩
  | cons x xs ih =>
    intro s i s1 config1 h
    obtain ⟨_, ft, _, _, _⟩ := getPlaneHelper_frame c s dsp x.planeType
    unfold allocPass at h
    simp only [] at h
    cases hr : (getPlaneHelper c s dsp x.planeType).1 with
    | none =>
      rw [hr] at h
      simp at h
    | some p =>
      rw [hr] at h
      simp only [] at h
      cases hrec : allocPass c dsp
          (enable { (getPlaneHelper c s dsp x.planeType).2 with
            trace := (getPlaneHelper c s dsp x.planeType).2.trace ++ [Event.bind i (some p)] } p)
          (i + 1) xs with
      | error e =>
        rw [hrec] at h
        simp at h
      | ok r =>
        obtain ⟨s2, rest1⟩ := r
        rw [hrec] at h
        simp only [Except.ok.injEq, Prod.mk.injEq] at h
        obtain ⟨rfl, rfl⟩ := h
        obtain ⟨planes, hpl, htr⟩ := ih _ _ _ _ hrec
        refine ⟨p :: planes, by simp [hpl], ?_⟩
        rw [htr]
        simp [enable, ft, allocEvents]

/-- When the Z-order loop runs to its end, its events are `setZOrderConfig` on the plane
of each layer, in order. -/
theorem commitPass_trace (config : ZOrderConfig) (l : ZOrderConfig) :
    ∀ (s s2 : Manager) (planes : List DisplayPlane),
      commitPass config s l = Except.ok s2 →
      l.map (fun layer => layer.plane) = planes.map some →
      s2.trace = s.trace ++ commitEvents config planes := by
  induction l with
  | nil =>
    intro s s2 planes h hpl
    simp only [commitPass, Except.ok.injEq] at h
    subst h
    cases planes with
    | nil => simp [commitEvents]
    | cons q qs => simp at hpl
  | cons x xs ih =>
    intro s s2 planes h hpl
    cases planes with
    | nil => simp at hpl
    | cons q qs =>
      simp only [List.map_cons, List.cons.injEq] at hpl
      obtain ⟨hx, hrest⟩ := hpl
      unfold commitPass at h
      rw [hx] at h
      simp only [] at h
      rw [ih _ _ qs h hrest]
      simp [setZOrderConfig, commitEvents]

/-- C17 at the failing input: on the fresh pool, for the external pipeline and
[Overlay, Overlay, Overlay], the probe succeeds, but the events of the run are not a
bind and an enable for each of the three layers followed by three `setZOrderConfig`
calls, whatever the planes: the run stops after the null binding of position 2. -/
theorem assignPlanes_probe_passed_short_sequence :
    probe sampleEnums freshManager 1 [mkLayer 1, mkLayer 1, mkLayer 1] = true ∧
      ¬ ∃ (planes : List DisplayPlane) (config1 : ZOrderConfig), planes.length = 3 ∧
        (assignPlanes sampleEnums freshManager 1
            [mkLayer 1, mkLayer 1, mkLayer 1]).manager.trace =
          freshManager.trace ++ (allocEvents 0 planes ++ commitEvents config1 planes) := by
  refine ⟨by decide, ?_⟩
  rintro ⟨planes, config1, hlen, htr⟩
  have h5 : (assignPlanes sampleEnums freshManager 1
      [mkLayer 1, mkLayer 1, mkLayer 1]).manager.trace.length = 5 := by decide
  rw [htr] at h5
  simp only [List.length_append, length_allocEvents, length_commitEvents, hlen] at h5
  have h0 : freshManager.trace.length = 0 := rfl
  omega

/-- The order of operations of a run of `assignPlanes` that returns true: the events it
issues are, for the layers in order, the binding of layer i and then `enable()` on its
plane, followed by, for the layers in order, `setZOrderConfig` on the layer's plane with
the final configuration; so every `enable` comes before every `setZOrderConfig`. -/
theorem assignPlanes_operation_order (c : Enums) (s : Manager) (dsp : Int)
    (config : ZOrderConfig) (h : (assignPlanes c s dsp config).value = some true) :
    ∃ (s1 : Manager) (config1 : ZOrderConfig) (planes : List DisplayPlane)
      (evs : List Event),
      assignPlanes c s dsp config = Outcome.returned true s1 config1 ∧
        config1.map (fun layer => layer.plane) = planes.map some ∧
        planes.length = config.length ∧
        evs = allocEvents 0 planes ++ commitEvents config1 planes ∧
        s1.trace = s.trace ++ evs ∧
        (∀ (a b : Nat) (p q : DisplayPlane) (cfg : ZOrderConfig),
          evs[a]? = some (Event.enable p) → evs[b]? = some (Event.setZOrderConfig q cfg) →
          a < b) := by
  unfold assignPlanes at h ⊢
  rw [singleSpriteRewrite_eq] at h ⊢
  by_cases hp : probe c s dsp config = false
  · rw [if_pos hp] at h
    simp [Outcome.value] at h
  · rw [if_neg hp] at h ⊢
    cases ha : allocPass c dsp s 0 config with
    | error e =>
      rw [ha] at h
      simp [Outcome.value] at h
    | ok r =>
      obtain ⟨s1, config1⟩ := r
      rw [ha] at h
      simp only [] at h ⊢
      cases hc : commitPass config1 s1 config1 with
      | error e =>
        rw [hc] at h
        simp [Outcome.value] at h
      | ok s2 =>
        obtain ⟨planes, hpl, htr1⟩ := allocPass_trace c dsp config s 0 s1 config1 ha
        have htr2 := commitPass_trace config1 config1 s1 s2 planes hc hpl
        have hty := (allocPass_ok c dsp config s 0 s1 config1 ha).1
        have hlen : planes.length = config.length := by
          have h1 := congrArg List.length hpl
          have h2 := congrArg List.length hty
          simp only [List.length_map] at h1 h2
          omega
        refine ⟨s2, config1, planes, _, rfl, hpl, hlen, rfl, ?_, ?_⟩
        · rw [htr2, htr1, List.append_assoc]
        · intro a b p q cfg hea heb
          by_contra hab
          have hba : b ≤ a := Nat.le_of_not_lt hab
          by_cases hb : b < (allocEvents 0 planes).length
          · rw [List.getElem?_append_left hb] at heb
            exact mem_allocEvents planes 0 _ (List.getElem?_mem heb) q cfg rfl
          · have ha2 : (allocEvents 0 planes).length ≤ a := by omega
            rw [List.getElem?_append_right ha2] at hea
            exact mem_commitEvents config1 planes _ (List.getElem?_mem hea) p rfl

/-- The order of operations on the fresh pool for [Overlay, Primary] on the primary
pipeline. -/
theorem assignPlanes_operation_order_witness :
    ∃ (s1 : Manager) (config1 : ZOrderConfig) (planes : List DisplayPlane)
      (evs : List Event),
      assignPlanes sampleEnums freshManager 0 [mkLayer 1, mkLayer 2] =
          Outcome.returned true s1 config1 ∧
        config1.map (fun layer => layer.plane) = planes.map some ∧
        planes.length = ([mkLayer 1, mkLayer 2] : ZOrderConfig).length ∧
        evs = allocEvents 0 planes ++ commitEvents config1 planes ∧
        s1.trace = freshManager.trace ++ evs ∧
        (∀ (a b : Nat) (p q : DisplayPlane) (cfg : ZOrderConfig),
          evs[a]? = some (Event.enable p) → evs[b]? = some (Event.setZOrderConfig q cfg) →
          a < b) :=
  assignPlanes_operation_order sampleEnums freshManager 0 [mkLayer 1, mkLayer 2] (by decide)

/-- C18: `assignPlanes` does not validate. On the fresh pool and the primary pipeline,
[Primary, Overlay, Sprite] is rejected by `isValidZOrder`, yet `assignPlanes` returns
true, binds and enables a plane for each layer and commits the Z-order; and every
combination of an `isValidZOrder` result with an `assignPlanes` result occurs. -/
theorem assignPlanes_ignores_validity :
    (isValidZOrder sampleEnums 0 [mkLayer 2, mkLayer 1, mkLayer 0] = false ∧
        (assignPlanes sampleEnums freshManager 0
          [mkLayer 2, mkLayer 1, mkLayer 0]).value = some true ∧
        (assignPlanes sampleEnums freshManager 0 [mkLayer 2, mkLayer 1, mkLayer 0]).config =
          [⟨2, some ⟨2, 0⟩⟩, ⟨1, some ⟨1, 0⟩⟩, ⟨0, some ⟨0, 0⟩⟩] ∧
        (assignPlanes sampleEnums freshManager 0
          [mkLayer 2, mkLayer 1, mkLayer 0]).manager.enabled ⟨2, 0⟩ = true ∧
        (assignPlanes sampleEnums freshManager 0
          [mkLayer 2, mkLayer 1, mkLayer 0]).manager.enabled ⟨1, 0⟩ = true ∧
        (assignPlanes sampleEnums freshManager 0
          [mkLayer 2, mkLayer 1, mkLayer 0]).manager.enabled ⟨0, 0⟩ = true ∧
        getZOrderConfig (assignPlanes sampleEnums freshManager 0
          [mkLayer 2, mkLayer 1, mkLayer 0]).manager =
          [some ⟨2, 0⟩, some ⟨1, 0⟩, some ⟨0, 0⟩]) ∧
      ∀ valid result : Bool, ∃ (s : Manager) (config : ZOrderConfig),
        isValidZOrder sampleEnums 0 config = valid ∧
          (assignPlanes sampleEnums s 0 config).value = some result := by
  refine ⟨by decide, ?_⟩
  intro valid result
  cases valid <;> cases result
  · exact ⟨busyManager [⟨1, 0⟩, ⟨1, 1⟩], [mkLayer 2, mkLayer 1, mkLayer 0],
      by decide, by decide⟩
  · exact ⟨freshManager, [mkLayer 2, mkLayer 1, mkLayer 0], by decide, by decide⟩
  · exact ⟨busyManager [⟨1, 0⟩, ⟨1, 1⟩], [mkLayer 1, mkLayer 2], by decide, by decide⟩
  · exact ⟨freshManager, [mkLayer 1, mkLayer 2], by decide, by decide⟩

theorem getPlane_take (s : Manager) (type : Int) (index : Nat) (p : DisplayPlane)
    (h : (getPlane s type index).1 = some p) :
    s.free p = true ∧ (getPlane s type index).2 = takePlane s p := by
  unfold getPlane at h ⊢
  by_cases hc : index < s.planeCount type ∧ s.free ⟨type, index⟩ = true
  · rw [if_pos hc] at h ⊢
    simp only [Option.some.injEq] at h
    subst h
    exact ⟨hc.2, rfl⟩
  · rw [if_neg hc] at h
    cases h

theorem getAnyPlane_take (s : Manager) (type : Int) (p : DisplayPlane)
    (h : (getAnyPlane s type).1 = some p) :
    s.free p = true ∧ (getAnyPlane s type).2 = takePlane s p := by
  unfold getAnyPlane at h ⊢
  cases hf : (List.range (s.planeCount type)).find? (fun i => s.free ⟨type, i⟩) with
  | none =>
    rw [hf] at h
    cases h
  | some i =>
    rw [hf] at h
    simp only [Option.some.injEq] at h
    subst h
    have hfr := List.find?_some hf
    exact ⟨hfr, rfl⟩

/-- A plane returned by the selection policy was free and is taken out of the free
planes; nothing else changes. -/
theorem getPlaneHelper_take (c : Enums) (s : Manager) (dsp type : Int) (p : DisplayPlane)
    (h : (getPlaneHelper c s dsp type).1 = some p) :
    s.free p = true ∧ (getPlaneHelper c s dsp type).2 = takePlane s p := by
  unfold getPlaneHelper at h ⊢
  by_cases hi : s.mInitialized = false
  · rw [if_pos hi] at h
    cases h
  · rw [if_neg hi] at h ⊢
    by_cases hr : dsp < 0 ∨ dsp > c.DEVICE_EXTERNAL
    · rw [if_pos hr] at h
      cases h
    · rw [if_neg hr] at h ⊢
      simp only [] at h ⊢
      by_cases h1 : type = c.PLANE_PRIMARY
      · rw [if_pos h1] at h ⊢
        exact getPlane_take s type _ p h
      · rw [if_neg h1] at h ⊢
        by_cases h2 : type = c.PLANE_SPRITE
        · rw [if_pos h2] at h ⊢
          exact getAnyPlane_take s type p h
        · rw [if_neg h2] at h ⊢
          by_cases h3 : type = c.PLANE_OVERLAY
          · rw [if_pos h3] at h ⊢
            cases hg : (getPlane s type (preferenceIndex c dsp)).1 with
            | some q =>
              have hq := getPlane_take s type _ q hg
              have hpair : getPlane s type (preferenceIndex c dsp) = (some q, takePlane s q) :=
                Prod.ext hg hq.2
              rw [hpair] at h ⊢
              simp only [Option.some.injEq] at h
              subst h
              exact ⟨hq.1, rfl⟩
            | none =>
              have hq := getPlane_none_snd s type _ hg
              have hpair : getPlane s type (preferenceIndex c dsp) = (none, s) :=
                Prod.ext hg hq
              rw [hpair] at h ⊢
              exact getPlane_take s type _ p h
          · rw [if_neg h3] at h
            cases h

/-- When the allocation loop runs to its end, the planes it bound were free at its start
and no plane is bound twice. -/
theorem allocPass_injective (c : Enums) (dsp : Int) (config : ZOrderConfig) :
    ∀ (s : Manager) (i : Nat) (s1 : Manager) (config1 : ZOrderConfig),
      allocPass c dsp s i config = Except.ok (s1, config1) →
      (∀ layer ∈ config1, ∀ p, layer.plane = some p → s.free p = true) ∧
        (config1.map (fun layer => layer.plane)).Nodup := by
  induction config with
  | nil =>
    intro s i s1 config1 h
    simp only [allocPass, Except.ok.injEq, Prod.mk.injEq] at h
    obtain ⟨rfl, rfl⟩ := h
    exact ⟨by simp, by simp⟩
  | cons x xs ih =>
    intro s i s1 config1 h
    unfold allocPass at h
    simp only [] at h
    cases hr : (getPlaneHelper c s dsp x.planeType).1 with
    | none =>
      rw [hr] at h
      simp at h
    | some p =>
      obtain ⟨hfree, htake⟩ := getPlaneHelper_take c s dsp x.planeType p hr
      rw [hr] at h
      simp only [] at h
      cases hrec : allocPass c dsp
          (enable { (getPlaneHelper c s dsp x.planeType).2 with
            trace := (getPlaneHelper c s dsp x.planeType).2.trace ++ [Event.bind i (some p)] } p)
          (i + 1) xs with
      | error e =>
        rw [hrec] at h
        simp at h
      | ok r =>
        obtain ⟨s2, rest1⟩ := r
        rw [hrec] at h
        simp only [Except.ok.injEq, Prod.mk.injEq] at h
        obtain ⟨rfl, rfl⟩ := h
        obtain ⟨hfr, hnd⟩ := ih _ _ _ _ hrec
        have hlater : ∀ layer ∈ rest1, ∀ q, layer.plane = some q →
            q ≠ p ∧ s.free q = true := by
          intro layer hl q hq
          have h1 := hfr layer hl q hq
          rw [htake] at h1
          simp only [enable, takePlane] at h1
          by_cases hqp : q = p
          · rw [if_pos hqp] at h1
            cases h1
          · rw [if_neg hqp] at h1
            exact ⟨hqp, h1⟩
        constructor
        · intro layer hl q hq
          rcases List.mem_cons.mp hl with rfl | hl
          · simp only [Option.some.injEq] at hq
            subst hq
            exact hfree
          · exact (hlater layer hl q hq).2
        · simp only [List.map_cons, List.nodup_cons]
          refine ⟨?_, hnd⟩
          intro hmem
          obtain ⟨layer, hl, hq⟩ := List.mem_map.mp hmem
          exact (hlater layer hl p hq).1 rfl

/-- C20: when `assignPlanes` returns true, every layer is bound and no two different
positions of the configuration are bound to the same plane. -/
theorem assignPlanes_binding_injective (c : Enums) (s : Manager) (dsp : Int)
    (config : ZOrderConfig) (h : (assignPlanes c s dsp config).value = some true) :
    ∃ (s1 : Manager) (config1 : ZOrderConfig),
      assignPlanes c s dsp config = Outcome.returned true s1 config1 ∧
        (∀ layer ∈ config1, ∃ p, layer.plane = some p) ∧
        (∀ (i j : Nat) (a b : ZOrderLayer) (p : DisplayPlane), config1[i]? = some a →
          config1[j]? = some b → a.plane = some p → b.plane = some p → i = j) := by
  unfold assignPlanes at h ⊢
  rw [singleSpriteRewrite_eq] at h ⊢
  by_cases hp : probe c s dsp config = false
  · rw [if_pos hp] at h
    simp [Outcome.value] at h
  · rw [if_neg hp] at h ⊢
    cases ha : allocPass c dsp s 0 config with
    | error e =>
      rw [ha] at h
      simp [Outcome.value] at h
    | ok r =>
      obtain ⟨s1, config1⟩ := r
      rw [ha] at h
      simp only [] at h ⊢
      cases hc : commitPass config1 s1 config1 with
      | error e =>
        rw [hc] at h
        simp [Outcome.value] at h
      | ok s2 =>
        obtain ⟨_, hnd⟩ := allocPass_injective c dsp config s 0 s1 config1 ha
        obtain ⟨_, hen, _, _, _⟩ := allocPass_ok c dsp config s 0 s1 config1 ha
        refine ⟨s2, config1, rfl, ?_, ?_⟩
        · intro layer hl
          obtain ⟨q, hq, _⟩ := hen layer hl
          exact ⟨q, hq⟩
        · intro i j a b q hi hj hpa hpb
          have hi2 : (config1.map (fun layer => layer.plane))[i]? = some (some q) := by
            rw [List.getElem?_map, hi]
            simp [hpa]
          have hj2 : (config1.map (fun layer => layer.plane))[j]? = some (some q) := by
            rw [List.getElem?_map, hj]
            simp [hpb]
          have hlt : i < (config1.map (fun layer => layer.plane)).length := by
            rw [List.length_map]
            exact getElem?_lt_length config1 i a hi
          exact List.getElem?_inj hlt hnd (hi2.trans hj2.symm)

/-- C20 on the fresh pool for [Overlay, Overlay, Primary] on the external pipeline. -/
theorem assignPlanes_binding_injective_witness :
    ∃ (s1 : Manager) (config1 : ZOrderConfig),
      assignPlanes sampleEnums freshManager 1 [mkLayer 1, mkLayer 1, mkLayer 2] =
          Outcome.returned true s1 config1 ∧
        (∀ layer ∈ config1, ∃ p, layer.plane = some p) ∧
        (∀ (i j : Nat) (a b : ZOrderLayer) (p : DisplayPlane), config1[i]? = some a →
          config1[j]? = some b → a.plane = some p → b.plane = some p → i = j) :=
  assignPlanes_binding_injective sampleEnums freshManager 1 [mkLayer 1, mkLayer 1, mkLayer 2]
    (by decide)

end TngPlaneManager
